import Mathlib

/-!
# Verification of the leadr keyset-pagination subsystem

A shallow embedding, in Lean 4, of the cursor codec, sort-spec resolver,
keyset query builder, page assembler and repository operations of the
leadr leaderboard backend (Rust), together with proofs and refutations of
the stated properties of that subsystem.

Modelling conventions:
* A Rust `String` is modelled by its UTF-8 byte sequence, `Str := List Nat`
  (each element a byte value). Error messages, which never flow back into
  the data path, are modelled as Lean `String`s for readability.
* `i64` is modelled as `Int`; `u32`/`usize` as `Nat`. The `f64` column
  `score_val` is modelled over `Int` (floating point itself is not
  shallowly embeddable; no settled property depends on non-integral
  values, only on the dataflow of the parse-or-override computation).
* The SQLite store is modelled as an in-memory list of row records; a query
  is modelled as filter + sort + take over that list, with SQLite's
  comparison semantics (numeric values order before text, text compares
  bytewise with the BINARY collation, numeric affinity is applied to text
  parameters compared against numeric columns).
* Timestamps are modelled at seconds precision (`DT` below).  chrono
  formats a zero-nanosecond `NaiveDateTime` with `%F %T%.f` as
  `YYYY-MM-DD HH:MM:SS` (the sqlx SQLite TEXT encoding) and a
  zero-nanosecond `DateTime<Utc>` with `to_rfc3339` as
  `YYYY-MM-DDTHH:MM:SS+00:00`; both are reproduced exactly on that
  subspace.
* The external collaborators (serde_json, the base64 crate, chrono,
  SQLite) are not repository code; they are modelled concretely at the
  granularity the source exercises them, faithful to their documented
  behaviour on the inputs the source can produce.
-/

/-- A Rust `String` (or `&str`), modelled as its UTF-8 byte sequence. -/
abbrev Str : Type := List Nat

/-- Bytes of an ASCII Lean string literal, for writing `Str` constants. -/
def strOfAscii (s : String) : Str := s.data.map Char.toNat

/-- Every element of the list is a byte value. -/
def AllBytes (l : Str) : Prop := ∀ b ∈ l, b < 256

instance : DecidablePred AllBytes := fun l =>
  List.decidableBAll (fun b => b < 256) l

/-! ## Base64 (URL-safe alphabet, no padding)

Model of `base64::engine::general_purpose::URL_SAFE_NO_PAD` as used by the
cursor codec: the URL-safe alphabet `A-Z a-z 0-9 - _`, no `=` padding, and
canonical (zero) trailing bits required on decode, which is the default of
the general-purpose engines. -/

/-- The URL-safe base64 alphabet: sextet value to ASCII byte. -/
def b64Char (n : Nat) : Nat :=
  if n < 26 then 65 + n
  else if n < 52 then 97 + (n - 26)
  else if n < 62 then 48 + (n - 52)
  else if n = 62 then 45
  else 95

/-- Inverse alphabet: ASCII byte to sextet value, `none` on a byte outside
the URL-safe alphabet. -/
def b64Inv (c : Nat) : Option Nat :=
  if 65 ≤ c ∧ c ≤ 90 then some (c - 65)
  else if 97 ≤ c ∧ c ≤ 122 then some (c - 97 + 26)
  else if 48 ≤ c ∧ c ≤ 57 then some (c - 48 + 52)
  else if c = 45 then some 62
  else if c = 95 then some 63
  else none

/-- Base64url-encode a byte sequence, three bytes to four characters, with
the shortened final group and no padding. -/
def b64Encode : List Nat → Str
  | [] => []
  | [b0] => [b64Char (b0 / 4), b64Char (b0 % 4 * 16)]
  | [b0, b1] =>
      [b64Char (b0 / 4), b64Char (b0 % 4 * 16 + b1 / 16), b64Char (b1 % 16 * 4)]
  | b0 :: b1 :: b2 :: rest =>
      b64Char (b0 / 4) :: b64Char (b0 % 4 * 16 + b1 / 16) ::
      b64Char (b1 % 16 * 4 + b2 / 64) :: b64Char (b2 % 64) :: b64Encode rest

/-- Base64url-decode. Fails on characters outside the alphabet, on a
length of 1 mod 4, and on non-zero discarded trailing bits (the default
strictness of the `general_purpose` engines). -/
def b64Decode : Str → Except String (List Nat)
  | [] => .ok []
  | [_] => .error "Invalid input length"
  | [c0, c1] =>
      match b64Inv c0, b64Inv c1 with
      | some s0, some s1 =>
          if s1 % 16 = 0 then .ok [s0 * 4 + s1 / 16]
          else .error "Invalid last symbol"
      | _, _ => .error "Invalid byte"
  | [c0, c1, c2] =>
      match b64Inv c0, b64Inv c1, b64Inv c2 with
      | some s0, some s1, some s2 =>
          if s2 % 4 = 0 then .ok [s0 * 4 + s1 / 16, s1 % 16 * 16 + s2 / 4]
          else .error "Invalid last symbol"
      | _, _, _ => .error "Invalid byte"
  | c0 :: c1 :: c2 :: c3 :: rest =>
      match b64Inv c0, b64Inv c1, b64Inv c2, b64Inv c3 with
      | some s0, some s1, some s2, some s3 =>
          match b64Decode rest with
          | .ok tail =>
              .ok ((s0 * 4 + s1 / 16) :: (s1 % 16 * 16 + s2 / 4) ::
                   (s2 % 4 * 64 + s3) :: tail)
          | .error e => .error e
      | _, _, _, _ => .error "Invalid byte"

/-! ## UTF-8 validity

`String::from_utf8` succeeds exactly on valid UTF-8 byte sequences. The
validator is the standard acceptance automaton (RFC 3629 table), expressed
as a `foldl` over a step function so that validity composes over
concatenation. -/

/-- Automaton states: how many continuation bytes are still expected, with
dedicated states after the lead bytes E0/ED/F0/F4, whose first
continuation byte has a restricted range. -/
inductive U8St : Type
  | ground | n1 | n2 | n3 | sE0 | sED | sF0 | sF4
deriving DecidableEq, Repr

/-- One step of the UTF-8 acceptance automaton. -/
def u8Step (st : U8St) (b : Nat) : Option U8St :=
  match st with
  | .ground =>
      if b < 0x80 then some .ground
      else if 0xC2 ≤ b ∧ b ≤ 0xDF then some .n1
      else if b = 0xE0 then some .sE0
      else if (0xE1 ≤ b ∧ b ≤ 0xEC) ∨ (0xEE ≤ b ∧ b ≤ 0xEF) then some .n2
      else if b = 0xED then some .sED
      else if b = 0xF0 then some .sF0
      else if 0xF1 ≤ b ∧ b ≤ 0xF3 then some .n3
      else if b = 0xF4 then some .sF4
      else none
  | .n1 => if 0x80 ≤ b ∧ b ≤ 0xBF then some .ground else none
  | .n2 => if 0x80 ≤ b ∧ b ≤ 0xBF then some .n1 else none
  | .n3 => if 0x80 ≤ b ∧ b ≤ 0xBF then some .n2 else none
  | .sE0 => if 0xA0 ≤ b ∧ b ≤ 0xBF then some .n1 else none
  | .sED => if 0x80 ≤ b ∧ b ≤ 0x9F then some .n1 else none
  | .sF0 => if 0x90 ≤ b ∧ b ≤ 0xBF then some .n2 else none
  | .sF4 => if 0x80 ≤ b ∧ b ≤ 0x8F then some .n2 else none

/-- Run the automaton over a byte sequence. -/
def u8Run (st : Option U8St) (l : List Nat) : Option U8St :=
  l.foldl (fun s b => s.bind (fun st => u8Step st b)) st

/-- A byte sequence is valid UTF-8 when the automaton accepts it from and
back to the ground state. -/
def utf8Valid (l : List Nat) : Bool := u8Run (some U8St.ground) l = some U8St.ground

/-! ## JSON text layer

Model of the fragment of serde_json exercised by the cursor codec:
serialization of the two fixed-shape cursor records (two fields, in
declaration order, minimally escaped strings, no inserted whitespace),
and parsing of two-member JSON objects whose values are strings or i64
integers. The parser accepts either field order and optional whitespace,
as the derived deserializer does; escapes of code points at or above
0x80 via a backslash-u sequence are not modelled (the serializer never
emits them, and no settled property depends on them). -/

/-- Lowercase hexadecimal digit byte of a value below 16. -/
def hexLower (n : Nat) : Nat := if n < 10 then 48 + n else 87 + n

/-- Hexadecimal digit byte to value. -/
def hexVal (c : Nat) : Option Nat :=
  if 48 ≤ c ∧ c ≤ 57 then some (c - 48)
  else if 97 ≤ c ∧ c ≤ 102 then some (c - 97 + 10)
  else if 65 ≤ c ∧ c ≤ 70 then some (c - 65 + 10)
  else none

/-- serde_json escaping of one byte of string content: quote and
backslash escaped, the named control escapes, other control bytes as a
backslash-u sequence, everything else verbatim. -/
def escByte (b : Nat) : List Nat :=
  if b = 0x22 then [0x5C, 0x22]
  else if b = 0x5C then [0x5C, 0x5C]
  else if b = 0x08 then [0x5C, 0x62]
  else if b = 0x09 then [0x5C, 0x74]
  else if b = 0x0A then [0x5C, 0x6E]
  else if b = 0x0C then [0x5C, 0x66]
  else if b = 0x0D then [0x5C, 0x72]
  else if b < 0x20 then [0x5C, 0x75, 0x30, 0x30, hexLower (b / 16), hexLower (b % 16)]
  else [b]

def escBytes : Str → Str
  | [] => []
  | b :: rest => escByte b ++ escBytes rest

/-- A JSON string literal: quoted, escaped content. -/
def jsonStrLit (s : Str) : Str := 0x22 :: (escBytes s ++ [0x22])

/-- Little-endian decimal digits of a positive number, fuel-guarded to
keep the recursion structural. -/
def natDigitsAux : Nat → Nat → List Nat
  | 0, _ => []
  | fuel + 1, n => if n = 0 then [] else n % 10 :: natDigitsAux fuel (n / 10)

/-- Decimal digit bytes of a natural number, most significant first. -/
def natDecBytes (n : Nat) : Str :=
  if n = 0 then [0x30] else (natDigitsAux n n).reverse.map (fun d => 48 + d)

/-- Decimal text of an `i64` value, as serde_json and Display print it. -/
def intDecBytes (i : Int) : Str :=
  if i < 0 then 0x2D :: natDecBytes i.natAbs else natDecBytes i.toNat

def isWsByte (b : Nat) : Bool := b = 0x20 || b = 0x09 || b = 0x0A || b = 0x0D

def isDigitByte (b : Nat) : Bool := 48 ≤ b && b ≤ 57

/-- Skip insignificant JSON whitespace. -/
def skipWs (l : Str) : Str := l.dropWhile isWsByte

/-- Prepend a byte to the string under construction of a parse result. -/
def consFst (b : Nat) : Option (Str × Str) → Option (Str × Str)
  | none => none
  | some (s, r) => some (b :: s, r)

/-- Parse four hexadecimal digit bytes. -/
def parseHex4 : Str → Option (Nat × Str)
  | h1 :: h2 :: h3 :: h4 :: rest =>
      match hexVal h1, hexVal h2, hexVal h3, hexVal h4 with
      | some v1, some v2, some v3, some v4 =>
          some (((v1 * 16 + v2) * 16 + v3) * 16 + v4, rest)
      | _, _, _, _ => none
  | _ => none

/-- Decode one escape sequence (the backslash already consumed): the named
escapes, or a backslash-u sequence for a code point below 0x80. -/
def unescape1 : Str → Option (Nat × Str)
  | [] => none
  | e :: rest2 =>
      if e = 0x22 then some (0x22, rest2)
      else if e = 0x5C then some (0x5C, rest2)
      else if e = 0x2F then some (0x2F, rest2)
      else if e = 0x62 then some (0x08, rest2)
      else if e = 0x74 then some (0x09, rest2)
      else if e = 0x6E then some (0x0A, rest2)
      else if e = 0x66 then some (0x0C, rest2)
      else if e = 0x72 then some (0x0D, rest2)
      else if e = 0x75 then
        match parseHex4 rest2 with
        | some (v, rest3) => if v < 0x80 then some (v, rest3) else none
        | none => none
      else none

/-- Parse the body of a JSON string literal (opening quote already
consumed): unescape up to the closing quote, returning content and rest.
Rejects raw control bytes and lone or unknown escapes, as serde_json does.
Fuel-guarded (each step consumes at least one byte). -/
def parseStrBodyF : Nat → Str → Option (Str × Str)
  | 0, _ => none
  | fuel + 1, l =>
      match l with
      | [] => none
      | b :: rest =>
          if b = 0x22 then some ([], rest)
          else if b = 0x5C then
            match unescape1 rest with
            | some (v, rest2) => consFst v (parseStrBodyF fuel rest2)
            | none => none
          else if b < 0x20 then none
          else consFst b (parseStrBodyF fuel rest)

def parseStrBody (l : Str) : Option (Str × Str) := parseStrBodyF (l.length + 1) l

/-- Big-endian digit bytes to value. -/
def digitsToNat (ds : List Nat) : Nat := ds.foldl (fun acc d => acc * 10 + (d - 48)) 0

/-- Parse a non-empty run of decimal digits, greedily. -/
def parseDigits (l : Str) : Option (Nat × Str) :=
  match l.takeWhile isDigitByte with
  | [] => none
  | ds => some (digitsToNat ds, l.dropWhile isDigitByte)

/-- A JSON value of the shapes a cursor field can take. -/
inductive JVal : Type
  | jstr (s : Str)
  | jint (i : Int)
deriving DecidableEq, Repr

/-- Parse a JSON scalar value: a string literal, or an integer with
optional leading minus sign. -/
def parseJVal (l : Str) : Option (JVal × Str) :=
  match l with
  | [] => none
  | b :: rest =>
    if b = 0x22 then (parseStrBody rest).map (fun p => (JVal.jstr p.1, p.2))
    else if b = 0x2D then
      (parseDigits rest).map (fun p => (JVal.jint (-(p.1 : Int)), p.2))
    else if isDigitByte b then
      (parseDigits (b :: rest)).map (fun p => (JVal.jint (p.1 : Int), p.2))
    else none

/-- Parse one `"key": value` member. -/
def parseMember (l : Str) : Option ((Str × JVal) × Str) :=
  match skipWs l with
  | [] => none
  | b :: rest =>
    if b = 0x22 then
      match parseStrBody rest with
      | some (key, r1) =>
        match skipWs r1 with
        | c :: r3 =>
            if c = 0x3A then
              (parseJVal (skipWs r3)).map (fun p => ((key, p.1), p.2))
            else none
        | [] => none
      | none => none
    else none

/-- Parse a complete two-member JSON object, requiring the input to be
fully consumed. -/
def parseTwoMemberObj (l : Str) : Option ((Str × JVal) × (Str × JVal)) :=
  match skipWs l with
  | [] => none
  | b :: rest =>
    if b = 0x7B then
      match parseMember rest with
      | some (m1, r1) =>
        match skipWs r1 with
        | c :: r2 =>
          if c = 0x2C then
            match parseMember r2 with
            | some (m2, r3) =>
              match skipWs r3 with
              | d :: r4 =>
                  if d = 0x7D ∧ skipWs r4 = [] then some (m1, m2) else none
              | [] => none
            | none => none
          else none
        | [] => none
      | none => none
    else none

/-! ## Cursor records and codec

`src/utils/pagination.rs`, `mod cursor`: the two cursor record types, their
JSON shapes (field names and declaration order exactly as in the Rust
structs), and `encode_*` / `decode_*`.

serde_json serialization of a struct of `String` and `i64` fields cannot
fail, so the `Err` branch of the Rust encode functions is not reachable;
the `Except` result mirrors the Rust signature. The Rust decode functions
attach the collaborator error text after each step-specific message with
`format!`; the collaborator texts are modelled by representative fixed
strings (no settled property depends on their exact wording, only on the
step-specific part written by the repository itself). -/

/-- `GameCursor { hex_id, created_at }` (`created_at` is RFC 3339 text). -/
structure GameCursor : Type where
  hex_id : Str
  created_at : Str
deriving DecidableEq, Repr

/-- `ScoreCursor { id, sort_value }` (`sort_value` is the text of the
active sort column). -/
structure ScoreCursor : Type where
  id : Int
  sort_value : Str
deriving DecidableEq, Repr

/-- The bytes of the field name `hex_id`. -/
def hexIdKey : Str := [104, 101, 120, 95, 105, 100]

/-- The bytes of the field name `created_at`. -/
def createdAtKey : Str := [99, 114, 101, 97, 116, 101, 100, 95, 97, 116]

/-- The bytes of the field name `id`. -/
def idKey : Str := [105, 100]

/-- The bytes of the field name `sort_value`. -/
def sortValueKey : Str := [115, 111, 114, 116, 95, 118, 97, 108, 117, 101]

/-- serde_json text of a `GameCursor`: a two-member object in field
declaration order, no whitespace. -/
def gameCursorJson (c : GameCursor) : Str :=
  0x7B :: (jsonStrLit hexIdKey ++ (0x3A :: (jsonStrLit c.hex_id ++
    (0x2C :: (jsonStrLit createdAtKey ++ (0x3A :: (jsonStrLit c.created_at ++ [0x7D])))))))

/-- serde_json text of a `ScoreCursor`. -/
def scoreCursorJson (c : ScoreCursor) : Str :=
  0x7B :: (jsonStrLit idKey ++ (0x3A :: (intDecBytes c.id ++
    (0x2C :: (jsonStrLit sortValueKey ++ (0x3A :: (jsonStrLit c.sort_value ++ [0x7D])))))))

/-- serde_json deserialization of a `GameCursor`: a two-member object with
exactly the two expected fields (either order), both strings. -/
def gameCursorFromJson (l : Str) : Option GameCursor :=
  match parseTwoMemberObj l with
  | some ((k1, JVal.jstr s1), (k2, JVal.jstr s2)) =>
      if k1 = hexIdKey ∧ k2 = createdAtKey then some ⟨s1, s2⟩
      else if k1 = createdAtKey ∧ k2 = hexIdKey then some ⟨s2, s1⟩
      else none
  | _ => none

/-- serde_json deserialization of a `ScoreCursor`. -/
def scoreCursorFromJson (l : Str) : Option ScoreCursor :=
  match parseTwoMemberObj l with
  | some ((k1, JVal.jint i), (k2, JVal.jstr s)) =>
      if k1 = idKey ∧ k2 = sortValueKey then some ⟨i, s⟩ else none
  | some ((k1, JVal.jstr s), (k2, JVal.jint i)) =>
      if k1 = sortValueKey ∧ k2 = idKey then some ⟨i, s⟩ else none
  | _ => none

/-- `encode_game_cursor`: serialize to JSON, base64url-encode without
padding. -/
def encode_game_cursor (c : GameCursor) : Except String Str :=
  Except.ok (b64Encode (gameCursorJson c))

/-- `decode_game_cursor`: base64url-decode, UTF-8-check, deserialize; each
step failure is reported with that step's message text. -/
def decode_game_cursor (tok : Str) : Except String GameCursor :=
  match b64Decode tok with
  | .error e => .error ("Failed to decode cursor: " ++ e)
  | .ok bytes =>
      if utf8Valid bytes then
        match gameCursorFromJson bytes with
        | some c => .ok c
        | none => .error ("Failed to deserialize cursor: " ++ "invalid cursor JSON")
      else .error ("Invalid UTF-8 in cursor: " ++ "invalid utf-8 sequence")

/-- `encode_score_cursor`. -/
def encode_score_cursor (c : ScoreCursor) : Except String Str :=
  Except.ok (b64Encode (scoreCursorJson c))

/-- `decode_score_cursor`. -/
def decode_score_cursor (tok : Str) : Except String ScoreCursor :=
  match b64Decode tok with
  | .error e => .error ("Failed to decode cursor: " ++ e)
  | .ok bytes =>
      if utf8Valid bytes then
        match scoreCursorFromJson bytes with
        | some c => .ok c
        | none => .error ("Failed to deserialize cursor: " ++ "invalid cursor JSON")
      else .error ("Invalid UTF-8 in cursor: " ++ "invalid utf-8 sequence")

/-- Well-formedness of a Rust `String` value in the byte model: its bytes
are valid UTF-8 (the invariant Rust maintains for every `String`). -/
def WfStr (s : Str) : Prop := utf8Valid s = true

instance : DecidablePred WfStr := fun s => by
  unfold WfStr
  infer_instance

/-! ## Pagination parameters and the page assembler

`src/utils/pagination.rs`: `DEFAULT_PAGE_SIZE`, `MAX_PAGE_SIZE`,
`PaginationParams::get_limit`, `PaginatedResponse::from_query_results`. -/

def DEFAULT_PAGE_SIZE : Nat := 25

def MAX_PAGE_SIZE : Nat := 100

/-- `PaginationParams { cursor, limit }`. -/
structure PaginationParams : Type where
  cursor : Option Str
  limit : Option Nat
deriving DecidableEq, Repr

/-- `PaginationParams::get_limit`: a supplied limit in `(0, MAX_PAGE_SIZE]`
is used as-is, any other supplied limit is capped at the maximum, an
absent limit falls back to the default. -/
def PaginationParams.get_limit (p : PaginationParams) : Nat :=
  match p.limit with
  | some limit => if limit > 0 ∧ limit ≤ MAX_PAGE_SIZE then limit else MAX_PAGE_SIZE
  | none => DEFAULT_PAGE_SIZE

/-- `PaginatedResponse<T>`. -/
structure PaginatedResponse (T : Type) : Type where
  data : List T
  has_more : Bool
  next_cursor : Option Str
  current_cursor : Option Str
  total_returned : Nat
  page_size : Nat
deriving DecidableEq, Repr

/-- `PaginatedResponse::new`: `total_returned` is the data length. -/
def PaginatedResponse.new {T : Type} (data : List T) (has_more : Bool)
    (next_cursor : Option Str) (current_cursor : Option Str) (page_size : Nat) :
    PaginatedResponse T :=
  { data := data, has_more := has_more, next_cursor := next_cursor,
    current_cursor := current_cursor, total_returned := data.length,
    page_size := page_size }

/-- `PaginatedResponse::from_query_results`: over-fetch trimming. More rows
than the requested limit means a further page exists; one row (the probe)
is popped from the end; the next cursor is built from the last retained
row, or absent when nothing was retained; the current cursor is echoed. -/
def PaginatedResponse.from_query_results {T : Type} (data : List T)
    (requested_limit : Nat) (current_cursor : Option Str)
    (next_cursor_fn : T → Option Str) : PaginatedResponse T :=
  let has_more : Bool := decide (data.length > requested_limit)
  let data2 := if has_more then data.dropLast else data
  let next_cursor : Option Str :=
    if has_more && !data2.isEmpty then
      match data2.getLast? with
      | some x => next_cursor_fn x
      | none => none
    else none
  PaginatedResponse.new data2 has_more next_cursor current_cursor requested_limit

/-! ## Sort-spec resolver

`src/utils/pagination.rs`: `SortOrder`, `ScoreSortField`,
`ScoreSortParams` and its SQL resolution. -/

inductive SortOrder : Type
  | Ascending | Descending
deriving DecidableEq, Repr

inductive ScoreSortField : Type
  | Score | Date | UserName
deriving DecidableEq, Repr

structure ScoreSortParams : Type where
  sort_by : Option ScoreSortField
  order : Option SortOrder
deriving DecidableEq, Repr

/-- Default sort field is `score`. -/
def ScoreSortParams.get_sort_field (p : ScoreSortParams) : ScoreSortField :=
  p.sort_by.getD ScoreSortField.Score

/-- Default sort order is descending. -/
def ScoreSortParams.get_sort_order (p : ScoreSortParams) : SortOrder :=
  p.order.getD SortOrder.Descending

/-- `to_sql_order_clause`: physical column plus direction keyword. -/
def ScoreSortParams.to_sql_order_clause (p : ScoreSortParams) : String :=
  let field :=
    match p.get_sort_field with
    | ScoreSortField.Score => "score_val"
    | ScoreSortField.Date => "submitted_at"
    | ScoreSortField.UserName => "user_name"
  let order :=
    match p.get_sort_order with
    | SortOrder.Ascending => "ASC"
    | SortOrder.Descending => "DESC"
  field ++ " " ++ order

/-- `get_cursor_field`: the physical column used in the keyset predicate
and for building cursors. -/
def ScoreSortParams.get_cursor_field (p : ScoreSortParams) : String :=
  match p.get_sort_field with
  | ScoreSortField.Score => "score_val"
  | ScoreSortField.Date => "submitted_at"
  | ScoreSortField.UserName => "user_name"

/-- The comparison operator chosen inside `ScoreRepository::list_by_game`:
`>` when ascending, `<` when descending. -/
def scoreComparisonOp (p : ScoreSortParams) : String :=
  match p.get_sort_order with
  | SortOrder.Ascending => ">"
  | SortOrder.Descending => "<"

/-- The SQL text built by `ScoreRepository::list_by_game` for a cursored
request (the `format!` call, whitespace included). -/
def scoreListCursorQuerySql (sp : ScoreSortParams) : String :=
  "\n                SELECT id, game_hex_id, score, score_val, user_name, user_id, extra, submitted_at, deleted_at\n                FROM score \n                WHERE deleted_at IS NULL \n                AND game_hex_id = ?1\n                AND ("
  ++ sp.get_cursor_field ++ " " ++ scoreComparisonOp sp ++ " ?2 OR ("
  ++ sp.get_cursor_field ++ " = ?2 AND id > ?3))\n                ORDER BY "
  ++ sp.to_sql_order_clause ++ ", id\n                LIMIT ?4\n                "

/-! ## Timestamps

Seconds-precision civil datetimes, with the two textual forms the system
uses: the sqlx SQLite TEXT encoding of a `NaiveDateTime` (chrono format
string for a whole-second value: `YYYY-MM-DD HH:MM:SS`) and chrono
`to_rfc3339` of a whole-second UTC `DateTime`
(`YYYY-MM-DDTHH:MM:SS+00:00`). -/

structure DT : Type where
  year : Nat
  month : Nat
  day : Nat
  hour : Nat
  minute : Nat
  second : Nat
deriving DecidableEq, Repr

/-- Two-digit zero-padded decimal text. -/
def pad2 (n : Nat) : Str := if n < 10 then [0x30, 48 + n] else natDecBytes n

/-- Four-digit zero-padded decimal text. -/
def pad4 (n : Nat) : Str :=
  if n < 10 then [0x30, 0x30, 0x30, 48 + n]
  else if n < 100 then 0x30 :: 0x30 :: natDecBytes n
  else if n < 1000 then 0x30 :: natDecBytes n
  else natDecBytes n

/-- The TEXT value sqlx stores for a whole-second `NaiveDateTime` bound as
a SQLite parameter: `YYYY-MM-DD HH:MM:SS`. -/
def dtSqlText (t : DT) : Str :=
  pad4 t.year ++ [0x2D] ++ pad2 t.month ++ [0x2D] ++ pad2 t.day ++ [0x20] ++
  pad2 t.hour ++ [0x3A] ++ pad2 t.minute ++ [0x3A] ++ pad2 t.second

/-- chrono `to_rfc3339` of a whole-second UTC datetime:
`YYYY-MM-DDTHH:MM:SS+00:00`. -/
def dtRfc3339 (t : DT) : Str :=
  pad4 t.year ++ [0x2D] ++ pad2 t.month ++ [0x2D] ++ pad2 t.day ++ [0x54] ++
  pad2 t.hour ++ [0x3A] ++ pad2 t.minute ++ [0x3A] ++ pad2 t.second ++
  [0x2B, 0x30, 0x30, 0x3A, 0x30, 0x30]

/-- Parse a pair of decimal digit bytes. -/
def parse2Digits : Str → Option (Nat × Str)
  | d1 :: d2 :: rest =>
      if isDigitByte d1 && isDigitByte d2 then
        some ((d1 - 48) * 10 + (d2 - 48), rest)
      else none
  | _ => none

/-- chrono `DateTime::parse_from_rfc3339` followed by conversion to naive
UTC, restricted to the textual forms this system itself emits: no
fractional seconds, offset `+00:00` or `Z`. (chrono also accepts non-zero
offsets and fractions; no settled property involves them. Day-of-month
upper bounds are simplified to 31.) -/
def parseRfc3339 (s : Str) : Except String DT :=
  match s with
  | y1 :: y2 :: y3 :: y4 :: 0x2D :: rest1 =>
    match parse2Digits rest1 with
    | some (mo, 0x2D :: rest2) =>
      match parse2Digits rest2 with
      | some (dy, 0x54 :: rest3) =>
        match parse2Digits rest3 with
        | some (hr, 0x3A :: rest4) =>
          match parse2Digits rest4 with
          | some (mi, 0x3A :: rest5) =>
            match parse2Digits rest5 with
            | some (sec, off) =>
              if [y1, y2, y3, y4].all isDigitByte
                  ∧ (off = [0x2B, 0x30, 0x30, 0x3A, 0x30, 0x30] ∨ off = [0x5A])
                  ∧ 1 ≤ mo ∧ mo ≤ 12 ∧ 1 ≤ dy ∧ dy ≤ 31 ∧ hr ≤ 23 ∧ mi ≤ 59
                  ∧ sec ≤ 59 then
                Except.ok
                  { year := digitsToNat [y1, y2, y3, y4], month := mo, day := dy,
                    hour := hr, minute := mi, second := sec }
              else Except.error "input contains invalid characters"
            | _ => Except.error "premature end of input"
          | _ => Except.error "input contains invalid characters"
        | _ => Except.error "input contains invalid characters"
      | _ => Except.error "input contains invalid characters"
    | _ => Except.error "input contains invalid characters"
  | _ => Except.error "input contains invalid characters"

/-! ## SQLite value comparison

SQLite orders numeric values before text; text compares bytewise under
the default BINARY collation; a text parameter compared against a column
with numeric affinity is first converted to a number when the whole text
is numeric (integers suffice for the values this model produces). -/

inductive SqlVal : Type
  | num (i : Int)
  | text (s : Str)
deriving DecidableEq, Repr

/-- Bytewise (memcmp) lexicographic order on byte strings. -/
def strLtB : Str → Str → Bool
  | _ :: _, [] => false
  | [], rest => !rest.isEmpty
  | a :: as, b :: bs => if a = b then strLtB as bs else decide (a < b)

def sqlLt : SqlVal → SqlVal → Bool
  | SqlVal.num a, SqlVal.num b => a < b
  | SqlVal.num _, SqlVal.text _ => true
  | SqlVal.text _, SqlVal.num _ => false
  | SqlVal.text a, SqlVal.text b => strLtB a b

def sqlEqV : SqlVal → SqlVal → Bool
  | SqlVal.num a, SqlVal.num b => a = b
  | SqlVal.text a, SqlVal.text b => a = b
  | _, _ => false

/-- Parse a whole byte string as an (optionally negated) decimal integer. -/
def parseIntStrict (s : Str) : Option Int :=
  match s with
  | 0x2D :: rest =>
      if !rest.isEmpty && rest.all isDigitByte then some (-(digitsToNat rest : Int))
      else none
  | _ =>
      if !s.isEmpty && s.all isDigitByte then some ((digitsToNat s : Int))
      else none

/-- Numeric affinity applied to a bound parameter: numeric-looking text
becomes a number, anything else is left as-is. -/
def applyNumAffinity (v : SqlVal) : SqlVal :=
  match v with
  | SqlVal.text s =>
      match parseIntStrict s with
      | some n => SqlVal.num n
      | none => SqlVal.text s
  | v => v

/-! ## Rows, store and repository operations

`src/models/game.rs`, `src/models/score.rs`, `src/db/repository.rs`. The
store is a list of row records; a SELECT is filter + sort + take over it;
an UPDATE maps the matching rows. The autoincrement id is one more than
the largest id present. The `extra` JSON payload is modelled as its
serialized text. -/

structure GameRec : Type where
  id : Int
  hex_id : Str
  name : Str
  description : Option Str
  created_at : DT
  updated_at : DT
  deleted_at : Option DT
deriving DecidableEq, Repr

structure ScoreRec : Type where
  id : Int
  game_hex_id : Str
  score : Str
  score_val : Int
  user_name : Str
  user_id : Str
  extra : Option Str
  submitted_at : DT
  deleted_at : Option DT
deriving DecidableEq, Repr

structure CreateScore : Type where
  game_hex_id : Str
  score : Str
  score_val : Option Int
  user_name : Str
  user_id : Str
  extra : Option Str
deriving DecidableEq, Repr

structure UpdateScore : Type where
  score : Option Str
  score_val : Option Int
  user_name : Option Str
  user_id : Option Str
  extra : Option Str
deriving DecidableEq, Repr

abbrev GameDb : Type := List GameRec

abbrev ScoreDb : Type := List ScoreRec

/-- The error type of the repository layer (`ApiError`), restricted to the
variants these operations produce. -/
inductive ApiErr : Type
  | notFound
  | validationError (msg : String)
  | invalidParameter (msg : String)
deriving DecidableEq, Repr

/-- `Game::validate_hex_id`: exactly six bytes, each an ASCII digit or
lowercase letter. (Rust checks `len()`, which is the byte length, and
per-character class predicates that are false for any non-ASCII
character, whose bytes are all at least 0x80.) -/
def validate_hex_id (hex : Str) : Except String Unit :=
  if hex.length ≠ 6 then Except.error "Hex ID must be exactly 6 characters"
  else if !hex.all (fun c => (48 ≤ c && c ≤ 57) || (97 ≤ c && c ≤ 122)) then
    Except.error "Hex ID must contain only lowercase alphanumeric characters (0-9, a-z)"
  else Except.ok ()

/-- ASCII trim (the model of `str::trim` on the whitespace this system
can produce). -/
def trimWs (s : Str) : Str :=
  ((s.dropWhile isWsByte).reverse.dropWhile isWsByte).reverse

/-- `Score::validate_user_name`. -/
def validate_user_name (name : Str) : Except String Unit :=
  if (trimWs name).isEmpty then Except.error "User name cannot be empty"
  else if name.length > 100 then Except.error "User name cannot exceed 100 characters"
  else Except.ok ()

/-- `Score::validate_user_id`. -/
def validate_user_id (uid : Str) : Except String Unit :=
  if (trimWs uid).isEmpty then Except.error "User ID cannot be empty"
  else if uid.length > 255 then Except.error "User ID cannot exceed 255 characters"
  else Except.ok ()

def visibleGame (g : GameRec) : Bool := g.deleted_at.isNone

def visibleScore (s : ScoreRec) : Bool := s.deleted_at.isNone

/-- `GameCursor::from_game`. -/
def GameCursor.from_game (g : GameRec) : GameCursor :=
  { hex_id := g.hex_id, created_at := dtRfc3339 g.created_at }

/-- `ScoreCursor::from_score`: the cursor value is the textual form of the
active sort column (`f64` display text, RFC 3339 text, or the user name),
falling back to the score value for an unknown field name. -/
def ScoreCursor.from_score (s : ScoreRec) (sort_field : String) : ScoreCursor :=
  let sort_value :=
    match sort_field with
    | "score_val" => intDecBytes s.score_val
    | "submitted_at" => dtRfc3339 s.submitted_at
    | "user_name" => s.user_name
    | _ => intDecBytes s.score_val
  { id := s.id, sort_value := sort_value }

/-- The row-value comparison `(created_at, hex_id) < (?1, ?2)` of the
cursored game query, under SQLite TEXT comparison of both components
(`?1` is a bound `NaiveDateTime`, stored and compared in the same text
format as the column). -/
def gameKeysetPred (cDt : DT) (cHex : Str) (g : GameRec) : Bool :=
  let a := dtSqlText g.created_at
  let b := dtSqlText cDt
  strLtB a b || (a = b && strLtB g.hex_id cHex)

/-- `ORDER BY created_at DESC, hex_id DESC` as a total preorder: `a`
precedes `b` in the output. -/
def gameRowLe (a b : GameRec) : Bool :=
  let ka := dtSqlText a.created_at
  let kb := dtSqlText b.created_at
  if strLtB kb ka then true
  else if strLtB ka kb then false
  else !(strLtB a.hex_id b.hex_id)

def gameOrd (a b : GameRec) : Prop := gameRowLe a b = true

instance : DecidableRel gameOrd := fun a b => by
  unfold gameOrd
  infer_instance

/-- The value of the active sort column of a score row, as the SQLite
value the stored column holds. -/
def scoreSortColVal (f : ScoreSortField) (s : ScoreRec) : SqlVal :=
  match f with
  | ScoreSortField.Score => SqlVal.num s.score_val
  | ScoreSortField.Date => SqlVal.text (dtSqlText s.submitted_at)
  | ScoreSortField.UserName => SqlVal.text s.user_name

/-- The bound `?2` parameter (`cursor.sort_value`, a text value) as SQLite
compares it against the sort column: numeric affinity applies against the
numeric `score_val` column and against the datetime column (where a
datetime text never converts, so it stays text); the `user_name` column
has TEXT affinity. -/
def scoreCursorParamVal (f : ScoreSortField) (sv : Str) : SqlVal :=
  match f with
  | ScoreSortField.Score => applyNumAffinity (SqlVal.text sv)
  | ScoreSortField.Date => applyNumAffinity (SqlVal.text sv)
  | ScoreSortField.UserName => SqlVal.text sv

/-- The keyset resume predicate of the cursored score query:
`field <op> ?2 OR (field = ?2 AND id > ?3)`. -/
def scoreKeysetPred (sp : ScoreSortParams) (cur : ScoreCursor) (s : ScoreRec) : Bool :=
  let col := scoreSortColVal sp.get_sort_field s
  let p := scoreCursorParamVal sp.get_sort_field cur.sort_value
  let cmp :=
    match sp.get_sort_order with
    | SortOrder.Ascending => sqlLt p col
    | SortOrder.Descending => sqlLt col p
  cmp || (sqlEqV col p && decide (cur.id < s.id))

/-- `ORDER BY {field} {dir}, id` as a total preorder. -/
def scoreRowLe (sp : ScoreSortParams) (a b : ScoreRec) : Bool :=
  let va := scoreSortColVal sp.get_sort_field a
  let vb := scoreSortColVal sp.get_sort_field b
  match sp.get_sort_order with
  | SortOrder.Ascending =>
      if sqlLt va vb then true else if sqlLt vb va then false else a.id ≤ b.id
  | SortOrder.Descending =>
      if sqlLt vb va then true else if sqlLt va vb then false else a.id ≤ b.id

def scoreOrd (sp : ScoreSortParams) (a b : ScoreRec) : Prop := scoreRowLe sp a b = true

instance (sp : ScoreSortParams) : DecidableRel (scoreOrd sp) := fun a b => by
  unfold scoreOrd
  infer_instance

/-- `GameRepository::soft_delete`: mark the visible row with this hex id
deleted; zero affected rows is reported as not-found. Returns the result
together with the store after the UPDATE ran. -/
def GameRepository.soft_delete (db : GameDb) (hex : Str) (now : DT) :
    Except ApiErr Unit × GameDb :=
  match validate_hex_id hex with
  | .error e => (.error (ApiErr.invalidParameter e), db)
  | .ok _ =>
    let affected := (db.filter (fun g => g.hex_id = hex && visibleGame g)).length
    let db2 := db.map (fun g =>
      if g.hex_id = hex && visibleGame g then
        { g with deleted_at := some now, updated_at := now }
      else g)
    if affected = 0 then (.error ApiErr.notFound, db2) else (.ok (), db2)

/-- `GameRepository::restore`: clear `deleted_at` on the row with this hex
id that is currently soft-deleted; no such row is reported as not-found.
Returns the updated row (the `RETURNING` value) and the store after the
UPDATE ran. -/
def GameRepository.restore (db : GameDb) (hex : Str) (now : DT) :
    Except ApiErr GameRec × GameDb :=
  match validate_hex_id hex with
  | .error e => (.error (ApiErr.invalidParameter e), db)
  | .ok _ =>
    let db2 := db.map (fun g =>
      if g.hex_id = hex && !(visibleGame g) then
        { g with deleted_at := none, updated_at := now }
      else g)
    match (db.filter (fun g => g.hex_id = hex && !(visibleGame g))).head? with
    | some g => (.ok { g with deleted_at := none, updated_at := now }, db2)
    | none => (.error ApiErr.notFound, db2)

/-- `GameRepository::list`: decode the cursor when present (also parsing
its embedded RFC 3339 timestamp), over-fetch `limit + 1` visible rows in
`(created_at, hex_id)` descending order resuming after the cursor, and
assemble the page. -/
def GameRepository.list (db : GameDb) (pagination : PaginationParams) :
    Except ApiErr (PaginatedResponse GameRec) :=
  let limit := pagination.get_limit
  let fetch_limit := limit + 1
  let gamesE : Except ApiErr (List GameRec) :=
    match pagination.cursor with
    | some cursor_str =>
      match decode_game_cursor cursor_str with
      | .error e => .error (ApiErr.validationError ("Invalid cursor: " ++ e))
      | .ok cursor =>
        match parseRfc3339 cursor.created_at with
        | .error e => .error (ApiErr.validationError ("Invalid cursor date: " ++ e))
        | .ok cdt =>
          .ok (((db.filter (fun g => visibleGame g && gameKeysetPred cdt cursor.hex_id g)).insertionSort
            gameOrd).take fetch_limit)
    | none =>
        .ok (((db.filter visibleGame).insertionSort gameOrd).take fetch_limit)
  match gamesE with
  | .error e => .error e
  | .ok games =>
      .ok (PaginatedResponse.from_query_results games limit pagination.cursor
        (fun game => (encode_game_cursor (GameCursor.from_game game)).toOption))

/-- The id the store assigns to the next inserted score row. -/
def nextScoreId (db : ScoreDb) : Int := 1 + db.foldr (fun s acc => max s.id acc) 0

/-- `score.parse::<f64>().unwrap_or(0.0)` on the integer-modelled numeric
domain: the whole text as a decimal integer, or zero. -/
def parseScoreVal (s : Str) : Int :=
  match parseIntStrict s with
  | some n => n
  | none => 0

/-- `ScoreRepository::create`: validate, derive `score_val` from the
display text unless supplied, insert. -/
def ScoreRepository.create (db : ScoreDb) (cd : CreateScore) (now : DT) :
    Except ApiErr ScoreRec × ScoreDb :=
  match validate_user_name cd.user_name with
  | .error e => (.error (ApiErr.validationError e), db)
  | .ok _ =>
  match validate_user_id cd.user_id with
  | .error e => (.error (ApiErr.validationError e), db)
  | .ok _ =>
    let score_val := cd.score_val.getD (parseScoreVal cd.score)
    let row : ScoreRec :=
      { id := nextScoreId db, game_hex_id := cd.game_hex_id, score := cd.score,
        score_val := score_val, user_name := cd.user_name, user_id := cd.user_id,
        extra := cd.extra, submitted_at := now, deleted_at := none }
    (.ok row, db ++ [row])

/-- `ScoreRepository::update`: validate the supplied fields; when a new
`score` is supplied, `score_val` is the supplied one or is re-derived
from the new text; otherwise the supplied `score_val`, if any;
`COALESCE` keeps every unsupplied column. Not-found when no visible row
has the id. -/
def ScoreRepository.update (db : ScoreDb) (id : Int) (ud : UpdateScore) :
    Except ApiErr ScoreRec × ScoreDb :=
  match (match ud.user_name with | some n => validate_user_name n | none => .ok ()) with
  | .error e => (.error (ApiErr.validationError e), db)
  | .ok _ =>
  match (match ud.user_id with | some n => validate_user_id n | none => .ok ()) with
  | .error e => (.error (ApiErr.validationError e), db)
  | .ok _ =>
    let score_val : Option Int :=
      match ud.score with
      | some s => some (ud.score_val.getD (parseScoreVal s))
      | none => ud.score_val
    let upd : ScoreRec → ScoreRec := fun r =>
      { r with
        score := ud.score.getD r.score,
        score_val := score_val.getD r.score_val,
        user_name := ud.user_name.getD r.user_name,
        user_id := ud.user_id.getD r.user_id,
        extra := match ud.extra with | some e => some e | none => r.extra }
    match (db.filter (fun r => r.id = id && visibleScore r)).head? with
    | some r =>
        (.ok (upd r), db.map (fun r => if r.id = id && visibleScore r then upd r else r))
    | none => (.error ApiErr.notFound, db)

/-- `ScoreRepository::list_by_game`: validate the game id, decode the
cursor when present, over-fetch `limit + 1` visible rows of the game in
the resolved order resuming after the cursor, and assemble the page. -/
def ScoreRepository.list_by_game (db : ScoreDb) (game_hex_id : Str)
    (pagination : PaginationParams) (sort_params : ScoreSortParams) :
    Except ApiErr (PaginatedResponse ScoreRec) :=
  match validate_hex_id game_hex_id with
  | .error e => .error (ApiErr.validationError e)
  | .ok _ =>
    let limit := pagination.get_limit
    let fetch_limit := limit + 1
    let sort_field := sort_params.get_cursor_field
    let scoresE : Except ApiErr (List ScoreRec) :=
      match pagination.cursor with
      | some cursor_str =>
        match decode_score_cursor cursor_str with
        | .error e => .error (ApiErr.validationError ("Invalid cursor: " ++ e))
        | .ok cursor =>
          .ok (((db.filter (fun s => visibleScore s && s.game_hex_id = game_hex_id &&
              scoreKeysetPred sort_params cursor s)).insertionSort
            (scoreOrd sort_params)).take fetch_limit)
      | none =>
        .ok (((db.filter (fun s => visibleScore s &&
            s.game_hex_id = game_hex_id)).insertionSort
          (scoreOrd sort_params)).take fetch_limit)
    match scoresE with
    | .error e => .error e
    | .ok scores =>
        .ok (PaginatedResponse.from_query_results scores limit pagination.cursor
          (fun score => (encode_score_cursor (ScoreCursor.from_score score sort_field)).toOption))

/-- The data rows of a repository list result (empty on error). -/
def pageData {T : Type} (r : Except ApiErr (PaginatedResponse T)) : List T :=
  match r with
  | .ok p => p.data
  | .error _ => []

/-- The next-cursor token of a repository list result. -/
def pageNext {T : Type} (r : Except ApiErr (PaginatedResponse T)) : Option Str :=
  match r with
  | .ok p => p.next_cursor
  | .error _ => none

/-- The has-more flag of a repository list result. -/
def pageMore {T : Type} (r : Except ApiErr (PaginatedResponse T)) : Bool :=
  match r with
  | .ok p => p.has_more
  | .error _ => false

instance {e a : Type} [DecidableEq e] [DecidableEq a] : DecidableEq (Except e a) := fun
  | Except.ok x, Except.ok y => decidable_of_iff (x = y) (by simp)
  | Except.ok _, Except.error _ => isFalse (by simp)
  | Except.error _, Except.ok _ => isFalse (by simp)
  | Except.error x, Except.error y => decidable_of_iff (x = y) (by simp)

/-! ### END OF DEFINITIONS -/

/-! ## Proof development -/

theorem b64Inv_b64Char : ∀ n < 64, b64Inv (b64Char n) = some n := by decide

theorem b64Char_lt (n : Nat) (h : n < 64) : b64Char n < 256 := by
  unfold b64Char
  split <;> try omega
  split <;> try omega
  split <;> try omega
  split <;> omega

/-- Decoding inverts encoding on byte sequences. -/
theorem b64Decode_b64Encode :
    ∀ bs : List Nat, AllBytes bs → b64Decode (b64Encode bs) = .ok bs := by
  intro bs
  induction bs using b64Encode.induct with
  | case1 => intro _; rfl
  | case2 b0 =>
      intro h
      have hb0 : b0 < 256 := h b0 (by simp)
      have h0 : b0 / 4 < 64 := by omega
      have h1 : b0 % 4 * 16 < 64 := by omega
      simp only [b64Encode, b64Decode, b64Inv_b64Char _ h0, b64Inv_b64Char _ h1]
      have hz : b0 % 4 * 16 % 16 = 0 := by omega
      have e0 : b0 / 4 * 4 + b0 % 4 * 16 / 16 = b0 := by omega
      simp [hz]
      omega
  | case3 b0 b1 =>
      intro h
      have hb0 : b0 < 256 := h b0 (by simp)
      have hb1 : b1 < 256 := h b1 (by simp)
      have h0 : b0 / 4 < 64 := by omega
      have h1 : b0 % 4 * 16 + b1 / 16 < 64 := by omega
      have h2 : b1 % 16 * 4 < 64 := by omega
      simp only [b64Encode, b64Decode, b64Inv_b64Char _ h0, b64Inv_b64Char _ h1,
        b64Inv_b64Char _ h2]
      have hz : b1 % 16 * 4 % 4 = 0 := by omega
      have e0 : b0 / 4 * 4 + (b0 % 4 * 16 + b1 / 16) / 16 = b0 := by omega
      have e1 : (b0 % 4 * 16 + b1 / 16) % 16 * 16 + b1 % 16 * 4 / 4 = b1 := by omega
      simp [hz]
      omega
  | case4 b0 b1 b2 rest ih =>
      intro h
      have hb0 : b0 < 256 := h b0 (by simp)
      have hb1 : b1 < 256 := h b1 (by simp)
      have hb2 : b2 < 256 := h b2 (by simp)
      have hrest : AllBytes rest := fun b hb => h b (by simp [hb])
      have h0 : b0 / 4 < 64 := by omega
      have h1 : b0 % 4 * 16 + b1 / 16 < 64 := by omega
      have h2 : b1 % 16 * 4 + b2 / 64 < 64 := by omega
      have h3 : b2 % 64 < 64 := by omega
      simp only [b64Encode, b64Decode, b64Inv_b64Char _ h0, b64Inv_b64Char _ h1,
        b64Inv_b64Char _ h2, b64Inv_b64Char _ h3, ih hrest]
      have e0 : b0 / 4 * 4 + (b0 % 4 * 16 + b1 / 16) / 16 = b0 := by omega
      have e1 : (b0 % 4 * 16 + b1 / 16) % 16 * 16 + (b1 % 16 * 4 + b2 / 64) / 4 = b1 := by
        omega
      have e2 : (b1 % 16 * 4 + b2 / 64) % 4 * 64 + b2 % 64 = b2 := by omega
      rw [e0, e1, e2]

/-- Encoding produces ASCII bytes (in particular, valid UTF-8). -/
theorem b64Encode_ascii :
    ∀ bs : List Nat, AllBytes bs → ∀ c ∈ b64Encode bs, c < 128 := by
  intro bs
  have hch : ∀ n, n < 64 → b64Char n < 128 := by decide
  induction bs using b64Encode.induct with
  | case1 => intro _ c hc; simp [b64Encode] at hc
  | case2 b0 =>
      intro h c hc
      have hb0 : b0 < 256 := h b0 (by simp)
      simp only [b64Encode, List.mem_cons, List.mem_singleton] at hc
      rcases hc with rfl | rfl | h'
      · exact hch _ (by omega)
      · exact hch _ (by omega)
      · simp at h'
  | case3 b0 b1 =>
      intro h c hc
      have hb0 : b0 < 256 := h b0 (by simp)
      have hb1 : b1 < 256 := h b1 (by simp)
      simp only [b64Encode, List.mem_cons, List.mem_singleton] at hc
      rcases hc with rfl | rfl | rfl | h'
      · exact hch _ (by omega)
      · exact hch _ (by omega)
      · exact hch _ (by omega)
      · simp at h'
  | case4 b0 b1 b2 rest ih =>
      intro h c hc
      have hb0 : b0 < 256 := h b0 (by simp)
      have hb1 : b1 < 256 := h b1 (by simp)
      have hb2 : b2 < 256 := h b2 (by simp)
      have hrest : AllBytes rest := fun b hb => h b (by simp [hb])
      simp only [b64Encode, List.mem_cons] at hc
      rcases hc with rfl | rfl | rfl | rfl | h'
      · exact hch _ (by omega)
      · exact hch _ (by omega)
      · exact hch _ (by omega)
      · exact hch _ (by omega)
      · exact ih hrest c h'

theorem u8Run_cons (st : U8St) (b : Nat) (l : List Nat) :
    u8Run (some st) (b :: l) = u8Run (u8Step st b) l := rfl

theorem u8Run_none (l : List Nat) : u8Run none l = none := by
  induction l with
  | nil => rfl
  | cons b rest ih => exact ih

theorem u8Run_append (st : Option U8St) (a b : List Nat) :
    u8Run st (a ++ b) = u8Run (u8Run st a) b := by
  simp [u8Run, List.foldl_append]

/-- Valid UTF-8 sequences are closed under concatenation. -/
theorem utf8Valid_append {a b : List Nat} (ha : utf8Valid a = true)
    (hb : utf8Valid b = true) : utf8Valid (a ++ b) = true := by
  simp only [utf8Valid, decide_eq_true_eq] at *
  rw [u8Run_append, ha]
  exact hb

theorem u8Run_ascii :
    ∀ l : List Nat, (∀ b ∈ l, b < 128) → u8Run (some U8St.ground) l = some U8St.ground := by
  intro l
  induction l with
  | nil => intro _; rfl
  | cons b rest ih =>
      intro h
      have hb : b < 128 := h b (by simp)
      rw [u8Run_cons, show u8Step U8St.ground b = some U8St.ground by simp [u8Step, hb]]
      exact ih (fun x hx => h x (by simp [hx]))

/-- ASCII sequences are valid UTF-8. -/
theorem utf8Valid_ascii {l : List Nat} (h : ∀ b ∈ l, b < 128) : utf8Valid l = true := by
  simp only [utf8Valid, decide_eq_true_eq]
  exact u8Run_ascii l h

theorem u8Step_byte : ∀ (st : U8St) (b : Nat), u8Step st b ≠ none → b < 256 := by
  intro st b h
  cases st <;> simp only [u8Step] at h <;> (repeat' split at h) <;>
    first | omega | (exact absurd rfl h)

/-- Valid UTF-8 sequences consist of byte values. -/
theorem utf8Valid_bytes {l : List Nat} (h : utf8Valid l = true) : AllBytes l := by
  simp only [utf8Valid, decide_eq_true_eq] at h
  suffices H : ∀ (l : List Nat) (st : U8St),
      u8Run (some st) l = some U8St.ground → AllBytes l from H l U8St.ground h
  intro l
  induction l with
  | nil => intro st _ b hb; simp at hb
  | cons b rest ih =>
      intro st hrun c hc
      rw [u8Run_cons] at hrun
      cases hstep : u8Step st b with
      | none =>
          rw [hstep, u8Run_none] at hrun
          exact absurd hrun (by simp)
      | some st2 =>
          rw [hstep] at hrun
          rcases List.mem_cons.1 hc with rfl | hcrest
          · exact u8Step_byte st c (by simp [hstep])
          · exact ih st2 hrun c hcrest

/-! ### Decimal printing and parsing -/

theorem takeWhile_append_all {p : Nat → Bool} {A : Str} (r : Str)
    (h : ∀ a ∈ A, p a = true) :
    (A ++ r).takeWhile p = A ++ r.takeWhile p := by
  induction A with
  | nil => simp
  | cons a A ih =>
      simp [List.takeWhile_cons, h a (by simp),
        ih (fun x hx => h x (by simp [hx]))]

theorem dropWhile_append_all {p : Nat → Bool} {A : Str} (r : Str)
    (h : ∀ a ∈ A, p a = true) :
    (A ++ r).dropWhile p = r.dropWhile p := by
  induction A with
  | nil => simp
  | cons a A ih =>
      simp [List.dropWhile_cons, h a (by simp),
        ih (fun x hx => h x (by simp [hx]))]

theorem skipWs_cons_not {b : Nat} {l : Str} (h : isWsByte b = false) :
    skipWs (b :: l) = b :: l := by
  simp [skipWs, List.dropWhile_cons, h]

theorem natDigitsAux_val : ∀ (fuel n : Nat), n ≤ fuel →
    (natDigitsAux fuel n).foldr (fun d acc => acc * 10 + d) 0 = n := by
  intro fuel
  induction fuel with
  | zero => intro n h; interval_cases n; rfl
  | succ fuel ih =>
      intro n h
      by_cases hn : n = 0
      · subst hn; simp [natDigitsAux]
      · have h10 : n / 10 ≤ fuel := by omega
        simp only [natDigitsAux, if_neg hn, List.foldr_cons, ih _ h10]
        omega

theorem natDigitsAux_lt10 : ∀ (fuel n : Nat), ∀ d ∈ natDigitsAux fuel n, d < 10 := by
  intro fuel
  induction fuel with
  | zero => intro n d hd; simp [natDigitsAux] at hd
  | succ fuel ih =>
      intro n d hd
      by_cases hn : n = 0
      · simp [natDigitsAux, hn] at hd
      · simp only [natDigitsAux, if_neg hn, List.mem_cons] at hd
        rcases hd with rfl | hd
        · omega
        · exact ih _ d hd

theorem natDigitsAux_ne_nil (n : Nat) (h : 1 ≤ n) : natDigitsAux n n ≠ [] := by
  cases n with
  | zero => omega
  | succ m => simp [natDigitsAux]

theorem natDecBytes_digits (n : Nat) : ∀ d ∈ natDecBytes n, 48 ≤ d ∧ d ≤ 57 := by
  intro d hd
  unfold natDecBytes at hd
  by_cases hn : n = 0
  · simp [hn] at hd; omega
  · simp only [if_neg hn, List.mem_map, List.mem_reverse] at hd
    obtain ⟨x, hx, rfl⟩ := hd
    have := natDigitsAux_lt10 n n x hx
    omega

theorem natDecBytes_ne_nil (n : Nat) : natDecBytes n ≠ [] := by
  unfold natDecBytes
  by_cases hn : n = 0
  · simp [hn]
  · simp only [if_neg hn, ne_eq, List.map_eq_nil_iff, List.reverse_eq_nil_iff]
    exact natDigitsAux_ne_nil n (by omega)

theorem digitsToNat_natDecBytes (n : Nat) : digitsToNat (natDecBytes n) = n := by
  by_cases hn : n = 0
  · subst hn; rfl
  · unfold natDecBytes digitsToNat
    rw [if_neg hn, List.foldl_map, List.foldl_reverse]
    have hfun : (fun (d acc : Nat) => acc * 10 + (48 + d - 48))
        = fun d acc => acc * 10 + d := by
      funext d acc; omega
    rw [hfun, natDigitsAux_val n n le_rfl]

theorem head_not_digit_absorb {r : Str}
    (h : ∀ b, r.head? = some b → isDigitByte b = false) :
    r.takeWhile isDigitByte = [] ∧ r.dropWhile isDigitByte = r := by
  cases r with
  | nil => simp
  | cons b l =>
      have hb := h b rfl
      simp [List.takeWhile_cons, List.dropWhile_cons, hb]

theorem parseDigits_emit (n : Nat) (r : Str)
    (h : ∀ b, r.head? = some b → isDigitByte b = false) :
    parseDigits (natDecBytes n ++ r) = some (n, r) := by
  have hall : ∀ a ∈ natDecBytes n, isDigitByte a = true := by
    intro a ha
    have := natDecBytes_digits n a ha
    simp only [isDigitByte, Bool.and_eq_true, decide_eq_true_eq]
    omega
  obtain ⟨htk, hdr⟩ := head_not_digit_absorb h
  unfold parseDigits
  rw [takeWhile_append_all _ hall, htk, List.append_nil,
    dropWhile_append_all _ hall, hdr]
  obtain ⟨d, ds, hds⟩ := List.exists_cons_of_ne_nil (natDecBytes_ne_nil n)
  rw [hds]
  show some (digitsToNat (d :: ds), r) = some (n, r)
  rw [← hds, digitsToNat_natDecBytes]


theorem parseJVal_int (i : Int) (r : Str)
    (h : ∀ b, r.head? = some b → isDigitByte b = false) :
    parseJVal (intDecBytes i ++ r) = some (JVal.jint i, r) := by
  by_cases hi : i < 0
  · rw [intDecBytes, if_pos hi]
    show parseJVal (0x2D :: (natDecBytes i.natAbs ++ r)) = _
    simp only [parseJVal]
    rw [if_pos trivial, parseDigits_emit _ _ h]
    have hcast : -((i.natAbs : Nat) : Int) = i := by omega
    show some (JVal.jint (-((i.natAbs : Nat) : Int)), r) = some (JVal.jint i, r)
    rw [hcast]
  · rw [intDecBytes, if_neg hi]
    obtain ⟨d, ds, hds⟩ := List.exists_cons_of_ne_nil (natDecBytes_ne_nil i.toNat)
    have hd : 48 ≤ d ∧ d ≤ 57 := natDecBytes_digits _ d (by rw [hds]; simp)
    rw [hds]
    show parseJVal (d :: (ds ++ r)) = _
    simp only [parseJVal]
    rw [if_neg (by omega), if_neg (by omega),
      if_pos (by simp only [isDigitByte, Bool.and_eq_true, decide_eq_true_eq]; omega)]
    have hback : d :: (ds ++ r) = natDecBytes i.toNat ++ r := by rw [hds]; rfl
    rw [hback, parseDigits_emit _ _ h]
    have hcast : ((i.toNat : Nat) : Int) = i := by omega
    show some (JVal.jint ((i.toNat : Nat) : Int), r) = some (JVal.jint i, r)
    rw [hcast]

theorem hexVal_hexLower : ∀ n < 16, hexVal (hexLower n) = some n := by decide

theorem escBytes_len (s : Str) : s.length ≤ (escBytes s).length := by
  induction s with
  | nil => simp [escBytes]
  | cons b s ih =>
      have h1 : 1 ≤ (escByte b).length := by
        unfold escByte
        repeat' split
        all_goals simp
      simp only [escBytes, List.length_append, List.length_cons]
      omega

theorem parseStrBodyF_esc : ∀ (s : Str) (fuel : Nat) (r : Str), s.length < fuel →
    parseStrBodyF fuel (escBytes s ++ (0x22 :: r)) = some (s, r) := by
  intro s
  induction s with
  | nil =>
      intro fuel r hf
      obtain ⟨f, rfl⟩ : ∃ f, fuel = f + 1 := ⟨fuel - 1, by omega⟩
      simp [escBytes, parseStrBodyF]
  | cons b s ih =>
      intro fuel r hf
      obtain ⟨f, rfl⟩ : ∃ f, fuel = f + 1 := ⟨fuel - 1, by omega⟩
      have hfs : s.length < f := by simp at hf; omega
      rw [escBytes, List.append_assoc]
      by_cases h1 : b = 0x22
      · subst h1
        show parseStrBodyF (f + 1) (0x5C :: (0x22 :: (escBytes s ++ (0x22 :: r)))) = _
        simp only [parseStrBodyF]
        rw [if_pos trivial]
        simp [unescape1, ih f r hfs, consFst]
      · by_cases h2 : b = 0x5C
        · subst h2
          show parseStrBodyF (f + 1) (0x5C :: (0x5C :: (escBytes s ++ (0x22 :: r)))) = _
          simp only [parseStrBodyF]
          rw [if_pos trivial]
          simp [unescape1, ih f r hfs, consFst]
        · by_cases h3 : b = 0x08
          · subst h3
            show parseStrBodyF (f + 1) (0x5C :: (0x62 :: (escBytes s ++ (0x22 :: r)))) = _
            simp only [parseStrBodyF]
            rw [if_pos trivial]
            simp [unescape1, ih f r hfs, consFst]
          · by_cases h4 : b = 0x09
            · subst h4
              show parseStrBodyF (f + 1) (0x5C :: (0x74 :: (escBytes s ++ (0x22 :: r)))) = _
              simp only [parseStrBodyF]
              rw [if_pos trivial]
              simp [unescape1, ih f r hfs, consFst]
            · by_cases h5 : b = 0x0A
              · subst h5
                show parseStrBodyF (f + 1) (0x5C :: (0x6E :: (escBytes s ++ (0x22 :: r)))) = _
                simp only [parseStrBodyF]
                rw [if_pos trivial]
                simp [unescape1, ih f r hfs, consFst]
              · by_cases h6 : b = 0x0C
                · subst h6
                  show parseStrBodyF (f + 1) (0x5C :: (0x66 :: (escBytes s ++ (0x22 :: r)))) = _
                  simp only [parseStrBodyF]
                  rw [if_pos trivial]
                  simp [unescape1, ih f r hfs, consFst]
                · by_cases h7 : b = 0x0D
                  · subst h7
                    show parseStrBodyF (f + 1) (0x5C :: (0x72 :: (escBytes s ++ (0x22 :: r)))) = _
                    simp only [parseStrBodyF]
                    rw [if_pos trivial]
                    simp [unescape1, ih f r hfs, consFst]
                  · by_cases h8 : b < 0x20
                    · have hesc : escByte b =
                          [0x5C, 0x75, 0x30, 0x30, hexLower (b / 16), hexLower (b % 16)] := by
                        unfold escByte
                        rw [if_neg h1, if_neg h2, if_neg h3, if_neg h4, if_neg h5,
                          if_neg h6, if_neg h7, if_pos h8]
                      rw [hesc]
                      show parseStrBodyF (f + 1) (0x5C :: (0x75 :: 0x30 :: 0x30 ::
                        hexLower (b / 16) :: hexLower (b % 16) ::
                        (escBytes s ++ (0x22 :: r)))) = _
                      simp only [parseStrBodyF]
                      rw [if_pos trivial]
                      have hv3 : hexVal (hexLower (b / 16)) = some (b / 16) :=
                        hexVal_hexLower _ (by omega)
                      have hv4 : hexVal (hexLower (b % 16)) = some (b % 16) :=
                        hexVal_hexLower _ (by omega)
                      have hu : unescape1 (0x75 :: 0x30 :: 0x30 :: hexLower (b / 16) ::
                          hexLower (b % 16) :: (escBytes s ++ (0x22 :: r)))
                          = some (b, escBytes s ++ (0x22 :: r)) := by
                        simp [unescape1, parseHex4, hv3, hv4,
                          show hexVal 0x30 = some 0 from by decide,
                          show ((0 * 16 + 0) * 16 + b / 16) * 16 + b % 16 = b from by omega,
                          show b / 16 * 16 + b % 16 = b from by omega,
                          show b < 0x80 from by omega]
                      rw [hu]
                      simp [ih f r hfs, consFst]
                    · have hesc : escByte b = [b] := by
                        unfold escByte
                        rw [if_neg h1, if_neg h2, if_neg h3, if_neg h4, if_neg h5,
                          if_neg h6, if_neg h7, if_neg h8]
                      rw [hesc]
                      show parseStrBodyF (f + 1) (b :: (escBytes s ++ (0x22 :: r))) = _
                      simp only [parseStrBodyF]
                      rw [if_neg h1, if_neg h2, if_neg h8]
                      simp [ih f r hfs, consFst]

theorem parseStrBody_esc (s r : Str) :
    parseStrBody (escBytes s ++ (0x22 :: r)) = some (s, r) := by
  unfold parseStrBody
  apply parseStrBodyF_esc
  have := escBytes_len s
  simp only [List.length_append, List.length_cons]
  omega

theorem parseJVal_str (s r : Str) :
    parseJVal (jsonStrLit s ++ r) = some (JVal.jstr s, r) := by
  show parseJVal (0x22 :: ((escBytes s ++ [0x22]) ++ r)) = _
  simp only [parseJVal]
  rw [if_pos trivial, List.append_assoc]
  show (parseStrBody (escBytes s ++ (0x22 :: r))).map _ = _
  rw [parseStrBody_esc s r]
  rfl

theorem parseMember_emit (k v : Str) (w : JVal) (r : Str)
    (hv : parseJVal (v ++ r) = some (w, r))
    (hs : skipWs (v ++ r) = v ++ r) :
    parseMember (jsonStrLit k ++ (0x3A :: (v ++ r))) = some ((k, w), r) := by
  have h0 : skipWs (jsonStrLit k ++ (0x3A :: (v ++ r)))
      = 0x22 :: (escBytes k ++ (0x22 :: (0x3A :: (v ++ r)))) := by
    rw [show jsonStrLit k ++ (0x3A :: (v ++ r))
        = 0x22 :: (escBytes k ++ (0x22 :: (0x3A :: (v ++ r)))) from by simp [jsonStrLit],
      skipWs_cons_not (by decide)]
  have h2 : skipWs (0x3A :: (v ++ r)) = 0x3A :: (v ++ r) := skipWs_cons_not (by decide)
  simp [parseMember, h0, parseStrBody_esc k (0x3A :: (v ++ r)), h2, hs, hv]

theorem parseTwoMemberObj_emit (k1 k2 v1 v2 : Str) (w1 w2 : JVal)
    (hv1 : parseJVal (v1 ++ (0x2C :: (jsonStrLit k2 ++ (0x3A :: (v2 ++ [0x7D])))))
      = some (w1, 0x2C :: (jsonStrLit k2 ++ (0x3A :: (v2 ++ [0x7D])))))
    (hs1 : skipWs (v1 ++ (0x2C :: (jsonStrLit k2 ++ (0x3A :: (v2 ++ [0x7D])))))
      = v1 ++ (0x2C :: (jsonStrLit k2 ++ (0x3A :: (v2 ++ [0x7D])))))
    (hv2 : parseJVal (v2 ++ [0x7D]) = some (w2, [0x7D]))
    (hs2 : skipWs (v2 ++ [0x7D]) = v2 ++ [0x7D]) :
    parseTwoMemberObj (0x7B :: (jsonStrLit k1 ++ (0x3A :: (v1 ++
      (0x2C :: (jsonStrLit k2 ++ (0x3A :: (v2 ++ [0x7D]))))))))
      = some ((k1, w1), (k2, w2)) := by
  have hm1 := parseMember_emit k1 v1 w1 _ hv1 hs1
  have hm2 := parseMember_emit k2 v2 w2 _ hv2 hs2
  have hsk1 : skipWs (0x7B :: (jsonStrLit k1 ++ (0x3A :: (v1 ++
      (0x2C :: (jsonStrLit k2 ++ (0x3A :: (v2 ++ [0x7D])))))))) =
      0x7B :: (jsonStrLit k1 ++ (0x3A :: (v1 ++
      (0x2C :: (jsonStrLit k2 ++ (0x3A :: (v2 ++ [0x7D]))))))) :=
    skipWs_cons_not (by decide)
  have hsk2 : skipWs (0x2C :: (jsonStrLit k2 ++ (0x3A :: (v2 ++ [0x7D])))) =
      0x2C :: (jsonStrLit k2 ++ (0x3A :: (v2 ++ [0x7D]))) := skipWs_cons_not (by decide)
  have hsk3 : skipWs [0x7D] = [0x7D] := skipWs_cons_not (by decide)
  have hsk4 : skipWs ([] : Str) = [] := rfl
  simp [parseTwoMemberObj, hsk1, hm1, hsk2, hm2, hsk3, hsk4]

/-! ### Serialized cursors are valid UTF-8 and parse back -/

theorem escByte_ascii (b : Nat) (hb : b < 128) : ∀ c ∈ escByte b, c < 128 := by
  intro c hc
  have hl1 : hexLower (b / 16) < 128 := by unfold hexLower; split <;> omega
  have hl2 : hexLower (b % 16) < 128 := by unfold hexLower; split <;> omega
  unfold escByte at hc
  repeat' split at hc
  all_goals simp at hc
  all_goals omega

theorem u8Run_escBytes : ∀ (s : Str) (st : U8St),
    u8Run (some st) s = some U8St.ground →
    u8Run (some st) (escBytes s) = some U8St.ground := by
  intro s
  induction s with
  | nil => intro st h; exact h
  | cons b s ih =>
      intro st h
      rw [u8Run_cons] at h
      cases hstep : u8Step st b with
      | none => rw [hstep, u8Run_none] at h; exact absurd h (by simp)
      | some st2 =>
          rw [hstep] at h
          rw [escBytes]
          by_cases hb : 0x20 ≤ b ∧ b ≠ 0x22 ∧ b ≠ 0x5C
          · have hesc : escByte b = [b] := by
              unfold escByte
              repeat' rw [if_neg (by omega)]
            rw [hesc]
            show u8Run (some st) (b :: escBytes s) = _
            rw [u8Run_cons, hstep]
            exact ih st2 h
          · have hb128 : b < 128 := by omega
            have hst : st = U8St.ground ∧ st2 = U8St.ground := by
              cases st
              · refine ⟨rfl, ?_⟩
                rw [show u8Step U8St.ground b = some U8St.ground from by
                  simp [u8Step, show b < 0x80 from by omega]] at hstep
                exact (Option.some_inj.1 hstep).symm
              all_goals
                (exfalso; unfold u8Step at hstep;
                 split at hstep <;> simp_all <;> omega)
            obtain ⟨rfl, rfl⟩ := hst
            rw [u8Run_append,
              show u8Run (some U8St.ground) (escByte b) = some U8St.ground from
                u8Run_ascii _ (escByte_ascii b hb128)]
            exact ih _ h

theorem utf8Valid_escBytes {s : Str} (h : utf8Valid s = true) :
    utf8Valid (escBytes s) = true := by
  simp only [utf8Valid, decide_eq_true_eq] at h ⊢
  exact u8Run_escBytes s U8St.ground h

theorem utf8Valid_jsonStrLit {s : Str} (h : utf8Valid s = true) :
    utf8Valid (jsonStrLit s) = true := by
  show utf8Valid ([0x22] ++ (escBytes s ++ [0x22])) = true
  exact utf8Valid_append (utf8Valid_ascii (by decide))
    (utf8Valid_append (utf8Valid_escBytes h) (utf8Valid_ascii (by decide)))

theorem intDecBytes_ascii (i : Int) : ∀ b ∈ intDecBytes i, b < 128 := by
  intro b hb
  unfold intDecBytes at hb
  split at hb
  · rcases List.mem_cons.1 hb with rfl | hb2
    · omega
    · have := natDecBytes_digits _ b hb2; omega
  · have := natDecBytes_digits _ b hb; omega

theorem utf8Valid_gameCursorJson (c : GameCursor) (h1 : utf8Valid c.hex_id = true)
    (h2 : utf8Valid c.created_at = true) : utf8Valid (gameCursorJson c) = true := by
  show utf8Valid ([0x7B] ++ (jsonStrLit hexIdKey ++ ([0x3A] ++ (jsonStrLit c.hex_id ++
    ([0x2C] ++ (jsonStrLit createdAtKey ++ ([0x3A] ++ (jsonStrLit c.created_at ++
    [0x7D])))))))) = true
  apply utf8Valid_append (utf8Valid_ascii (by decide))
  apply utf8Valid_append (utf8Valid_jsonStrLit (utf8Valid_ascii (by decide)))
  apply utf8Valid_append (utf8Valid_ascii (by decide))
  apply utf8Valid_append (utf8Valid_jsonStrLit h1)
  apply utf8Valid_append (utf8Valid_ascii (by decide))
  apply utf8Valid_append (utf8Valid_jsonStrLit (utf8Valid_ascii (by decide)))
  apply utf8Valid_append (utf8Valid_ascii (by decide))
  exact utf8Valid_append (utf8Valid_jsonStrLit h2) (utf8Valid_ascii (by decide))

theorem utf8Valid_scoreCursorJson (c : ScoreCursor) (h2 : utf8Valid c.sort_value = true) :
    utf8Valid (scoreCursorJson c) = true := by
  show utf8Valid ([0x7B] ++ (jsonStrLit idKey ++ ([0x3A] ++ (intDecBytes c.id ++
    ([0x2C] ++ (jsonStrLit sortValueKey ++ ([0x3A] ++ (jsonStrLit c.sort_value ++
    [0x7D])))))))) = true
  apply utf8Valid_append (utf8Valid_ascii (by decide))
  apply utf8Valid_append (utf8Valid_jsonStrLit (utf8Valid_ascii (by decide)))
  apply utf8Valid_append (utf8Valid_ascii (by decide))
  apply utf8Valid_append (utf8Valid_ascii (intDecBytes_ascii c.id))
  apply utf8Valid_append (utf8Valid_ascii (by decide))
  apply utf8Valid_append (utf8Valid_jsonStrLit (utf8Valid_ascii (by decide)))
  apply utf8Valid_append (utf8Valid_ascii (by decide))
  exact utf8Valid_append (utf8Valid_jsonStrLit h2) (utf8Valid_ascii (by decide))

theorem skipWs_jsonStrLit (s R : Str) :
    skipWs (jsonStrLit s ++ R) = jsonStrLit s ++ R := by
  show skipWs (0x22 :: ((escBytes s ++ [0x22]) ++ R)) = _
  exact skipWs_cons_not (by decide)

theorem skipWs_intDecBytes (i : Int) (R : Str) :
    skipWs (intDecBytes i ++ R) = intDecBytes i ++ R := by
  by_cases hi : i < 0
  · rw [intDecBytes, if_pos hi]
    show skipWs (0x2D :: (natDecBytes i.natAbs ++ R)) = _
    exact skipWs_cons_not (by decide)
  · rw [intDecBytes, if_neg hi]
    obtain ⟨d, ds, hds⟩ := List.exists_cons_of_ne_nil (natDecBytes_ne_nil i.toNat)
    have hd : 48 ≤ d ∧ d ≤ 57 := natDecBytes_digits _ d (by rw [hds]; simp)
    rw [hds]
    show skipWs (d :: (ds ++ R)) = _
    exact skipWs_cons_not (by simp [isWsByte]; omega)

theorem head_comma_not_digit (X : Str) :
    ∀ b, (0x2C :: X).head? = some b → isDigitByte b = false := by
  intro b hb
  simp at hb
  subst hb
  decide

theorem gameCursorFromJson_emit (c : GameCursor) :
    gameCursorFromJson (gameCursorJson c) = some c := by
  have hv1 := parseJVal_str c.hex_id
    (0x2C :: (jsonStrLit createdAtKey ++ (0x3A :: (jsonStrLit c.created_at ++ [0x7D]))))
  have hs1 := skipWs_jsonStrLit c.hex_id
    (0x2C :: (jsonStrLit createdAtKey ++ (0x3A :: (jsonStrLit c.created_at ++ [0x7D]))))
  have hv2 := parseJVal_str c.created_at [0x7D]
  have hs2 := skipWs_jsonStrLit c.created_at [0x7D]
  have hobj := parseTwoMemberObj_emit hexIdKey createdAtKey
    (jsonStrLit c.hex_id) (jsonStrLit c.created_at)
    (JVal.jstr c.hex_id) (JVal.jstr c.created_at) hv1 hs1 hv2 hs2
  simp [gameCursorFromJson, gameCursorJson, hobj]

theorem scoreCursorFromJson_emit (c : ScoreCursor) :
    scoreCursorFromJson (scoreCursorJson c) = some c := by
  have hv1 := parseJVal_int c.id
    (0x2C :: (jsonStrLit sortValueKey ++ (0x3A :: (jsonStrLit c.sort_value ++ [0x7D]))))
    (head_comma_not_digit _)
  have hs1 := skipWs_intDecBytes c.id
    (0x2C :: (jsonStrLit sortValueKey ++ (0x3A :: (jsonStrLit c.sort_value ++ [0x7D]))))
  have hv2 := parseJVal_str c.sort_value [0x7D]
  have hs2 := skipWs_jsonStrLit c.sort_value [0x7D]
  have hobj := parseTwoMemberObj_emit idKey sortValueKey
    (intDecBytes c.id) (jsonStrLit c.sort_value)
    (JVal.jint c.id) (JVal.jstr c.sort_value) hv1 hs1 hv2 hs2
  simp [scoreCursorFromJson, scoreCursorJson, hobj]

/-- Decoding inverts encoding for game cursors with well-formed fields. -/
theorem decode_encode_game (c : GameCursor) (h1 : WfStr c.hex_id)
    (h2 : WfStr c.created_at) :
    decode_game_cursor (b64Encode (gameCursorJson c)) = .ok c := by
  have hvalid := utf8Valid_gameCursorJson c h1 h2
  have hbytes : AllBytes (gameCursorJson c) := utf8Valid_bytes hvalid
  unfold decode_game_cursor
  rw [b64Decode_b64Encode _ hbytes]
  simp [hvalid, gameCursorFromJson_emit c]

/-- Decoding inverts encoding for score cursors with a well-formed
`sort_value`. -/
theorem decode_encode_score (c : ScoreCursor) (h2 : WfStr c.sort_value) :
    decode_score_cursor (b64Encode (scoreCursorJson c)) = .ok c := by
  have hvalid := utf8Valid_scoreCursorJson c h2
  have hbytes : AllBytes (scoreCursorJson c) := utf8Valid_bytes hvalid
  unfold decode_score_cursor
  rw [b64Decode_b64Encode _ hbytes]
  simp [hvalid, scoreCursorFromJson_emit c]

/-! ### Page assembler expansion -/

theorem fromQueryResults_le {T : Type} (l : List T) (limit : Nat)
    (cur : Option Str) (f : T → Option Str) (h : l.length ≤ limit) :
    PaginatedResponse.from_query_results l limit cur f =
      ⟨l, false, none, cur, l.length, limit⟩ := by
  have hm : decide (l.length > limit) = false := by simp; omega
  unfold PaginatedResponse.from_query_results PaginatedResponse.new
  simp [hm]

theorem fromQueryResults_gt {T : Type} (l : List T) (limit : Nat)
    (cur : Option Str) (f : T → Option Str) (h : l.length > limit) :
    PaginatedResponse.from_query_results l limit cur f =
      ⟨l.dropLast, true,
        (match l.dropLast.getLast? with | some x => f x | none => none),
        cur, l.dropLast.length, limit⟩ := by
  have hm : decide (l.length > limit) = true := by simp; omega
  unfold PaginatedResponse.from_query_results PaginatedResponse.new
  simp only [hm]
  cases hd : l.dropLast with
  | nil => simp [hd]
  | cons a as => simp [hd]

/-! ## Claim theorems -/

/-- C5: `PaginationParams::get_limit` resolves `limit = some 0` and
`limit = some 1000` both to 100 (`MAX_PAGE_SIZE = 100`), resolves an
absent limit to 25 (`DEFAULT_PAGE_SIZE = 25`), returns any limit in
`[1, 100]` unchanged, and its result always lies in
`[1, MAX_PAGE_SIZE]`. -/
theorem paginationParams_get_limit_spec (cur : Option Str) (l : Nat) :
    MAX_PAGE_SIZE = 100 ∧ DEFAULT_PAGE_SIZE = 25 ∧
    (PaginationParams.mk cur (some 0)).get_limit = 100 ∧
    (PaginationParams.mk cur (some 1000)).get_limit = 100 ∧
    (PaginationParams.mk cur none).get_limit = 25 ∧
    (1 ≤ l → l ≤ 100 → (PaginationParams.mk cur (some l)).get_limit = l) ∧
    (∀ p : PaginationParams, 1 ≤ p.get_limit ∧ p.get_limit ≤ MAX_PAGE_SIZE) := by
  refine ⟨rfl, rfl, rfl, rfl, rfl, ?_, ?_⟩
  · intro h1 h2
    have hred : (PaginationParams.mk cur (some l)).get_limit =
        if l > 0 ∧ l ≤ MAX_PAGE_SIZE then l else MAX_PAGE_SIZE := rfl
    rw [hred, if_pos ⟨by omega, by unfold MAX_PAGE_SIZE; omega⟩]
  · intro p
    rcases p with ⟨c, _ | lim⟩
    · exact ⟨by norm_num [PaginationParams.get_limit, DEFAULT_PAGE_SIZE],
        by norm_num [PaginationParams.get_limit, DEFAULT_PAGE_SIZE, MAX_PAGE_SIZE]⟩
    · have hred : (PaginationParams.mk c (some lim)).get_limit =
          if lim > 0 ∧ lim ≤ MAX_PAGE_SIZE then lim else MAX_PAGE_SIZE := rfl
      rw [hred]
      unfold MAX_PAGE_SIZE
      split <;> omega

/-- Witness for C5 at a concrete in-range limit. -/
theorem paginationParams_get_limit_spec_witness :
    (PaginationParams.mk none (some 7)).get_limit = 7 :=
  (paginationParams_get_limit_spec none 7).2.2.2.2.2.1 (by decide) (by decide)

/-- C3: the page assembler returns short results unchanged with
`has_more = false` and no next cursor; an overfull result of length
`limit + 1` is trimmed by exactly its last element with `has_more = true`
and the next cursor built by the supplied function from the last retained
element (absent when nothing is retained); the current cursor is echoed
verbatim in every case. -/
theorem fromQueryResults_spec {T : Type} (l : List T) (limit : Nat)
    (cur : Option Str) (f : T → Option Str) :
    ((PaginatedResponse.from_query_results l limit cur f).current_cursor = cur) ∧
    (l.length ≤ limit →
      (PaginatedResponse.from_query_results l limit cur f).has_more = false ∧
      (PaginatedResponse.from_query_results l limit cur f).next_cursor = none ∧
      (PaginatedResponse.from_query_results l limit cur f).data = l) ∧
    (l.length = limit + 1 →
      (PaginatedResponse.from_query_results l limit cur f).has_more = true ∧
      (PaginatedResponse.from_query_results l limit cur f).data = l.dropLast ∧
      (PaginatedResponse.from_query_results l limit cur f).next_cursor =
        (match l.dropLast.getLast? with
         | some x => f x
         | none => none) ∧
      (l.dropLast = [] →
        (PaginatedResponse.from_query_results l limit cur f).next_cursor = none)) := by
  refine ⟨?_, ?_, ?_⟩
  · by_cases h : l.length > limit
    · rw [fromQueryResults_gt l limit cur f h]
    · rw [fromQueryResults_le l limit cur f (by omega)]
  · intro h
    rw [fromQueryResults_le l limit cur f h]
    exact ⟨rfl, rfl, rfl⟩
  · intro h
    rw [fromQueryResults_gt l limit cur f (by omega)]
    refine ⟨rfl, rfl, rfl, ?_⟩
    intro hempty
    simp [hempty]

/-- Witness for C3 at a concrete overfull input. -/
theorem fromQueryResults_spec_witness :
    (PaginatedResponse.from_query_results [0, 1, 2] 2 (some [97])
      (fun _ => some [98])).has_more = true ∧
    (PaginatedResponse.from_query_results [0, 1, 2] 2 (some [97])
      (fun _ => some [98])).data = [0, 1] := by
  have h := fromQueryResults_spec [0, 1, 2] 2 (some [97]) (fun _ => some [98])
  exact ⟨(h.2.2 rfl).1, (h.2.2 rfl).2.1⟩

/-- C9: whenever the query result is strictly longer than the requested
limit — including more than `limit + 1` rows, which the spec leaves
unstated — the assembler sets `has_more` and removes exactly one element
(the last), so the returned data has length `n - 1`, which can exceed the
requested limit. -/
theorem fromQueryResults_overlong {T : Type} (l : List T) (limit : Nat)
    (cur : Option Str) (f : T → Option Str) (h : l.length > limit) :
    (PaginatedResponse.from_query_results l limit cur f).has_more = true ∧
    (PaginatedResponse.from_query_results l limit cur f).data = l.dropLast ∧
    (PaginatedResponse.from_query_results l limit cur f).data.length = l.length - 1 := by
  rw [fromQueryResults_gt l limit cur f h]
  exact ⟨rfl, rfl, by simp [List.length_dropLast]⟩

/-- Witness for C9: five rows against limit 2 return four rows — more
than the limit. -/
theorem fromQueryResults_overlong_witness :
    (PaginatedResponse.from_query_results [0, 1, 2, 3, 4] 2 none
      (fun _ => none)).data.length = 4 ∧ 4 > 2 := by
  have h := fromQueryResults_overlong [0, 1, 2, 3, 4] 2 none (fun _ => none) (by decide)
  exact ⟨by simpa using h.2.2, by decide⟩
/-- C4: the cursored score query resumes with exactly
`field <op> ?2 OR (field = ?2 AND id > ?3)`, where the field is the
physical column resolved from the sort spec (score to `score_val`, date
to `submitted_at`, user name to `user_name`), the operator is `>` for
ascending and `<` for descending, the id tie-break is `>` (ascending)
regardless of direction, and the ORDER BY clause is the resolved field in
the requested direction followed by `id`. -/
theorem scoreList_keyset_predicate_shape (sb : Option ScoreSortField)
    (od : Option SortOrder) :
    ((ScoreSortParams.mk sb od).get_cursor_field =
      (match sb.getD ScoreSortField.Score with
       | ScoreSortField.Score => "score_val"
       | ScoreSortField.Date => "submitted_at"
       | ScoreSortField.UserName => "user_name")) ∧
    (scoreComparisonOp ⟨sb, od⟩ =
      (match od.getD SortOrder.Descending with
       | SortOrder.Ascending => ">"
       | SortOrder.Descending => "<")) ∧
    ((ScoreSortParams.mk sb od).to_sql_order_clause =
      (ScoreSortParams.mk sb od).get_cursor_field ++ " " ++
      (match od.getD SortOrder.Descending with
       | SortOrder.Ascending => "ASC"
       | SortOrder.Descending => "DESC")) ∧
    (scoreListCursorQuerySql ⟨sb, od⟩ =
      "\n                SELECT id, game_hex_id, score, score_val, user_name, user_id, extra, submitted_at, deleted_at\n                FROM score \n                WHERE deleted_at IS NULL \n                AND game_hex_id = ?1\n                AND ("
      ++ (ScoreSortParams.mk sb od).get_cursor_field ++ " " ++ scoreComparisonOp ⟨sb, od⟩
      ++ " ?2 OR (" ++ (ScoreSortParams.mk sb od).get_cursor_field
      ++ " = ?2 AND id > ?3))\n                ORDER BY "
      ++ (ScoreSortParams.mk sb od).to_sql_order_clause
      ++ ", id\n                LIMIT ?4\n                ") := by
  rcases sb with _ | f
  · rcases od with _ | o
    · exact ⟨rfl, rfl, rfl, rfl⟩
    · cases o <;> exact ⟨rfl, rfl, rfl, rfl⟩
  · rcases od with _ | o
    · cases f <;> exact ⟨rfl, rfl, rfl, rfl⟩
    · cases f <;> cases o <;> exact ⟨rfl, rfl, rfl, rfl⟩

/-- C10: both cursor encoders return `Ok` on every input: the
serialization-failure branch of the Rust signature is unreachable, so
encoding is total. -/
theorem encode_cursor_total :
    (∀ c : GameCursor, ∃ tok, encode_game_cursor c = Except.ok tok) ∧
    (∀ c : ScoreCursor, ∃ tok, encode_score_cursor c = Except.ok tok) :=
  ⟨fun c => ⟨b64Encode (gameCursorJson c), rfl⟩,
   fun c => ⟨b64Encode (scoreCursorJson c), rfl⟩⟩

/-- C2: `decode(encode(c)) = Ok(c)` for every well-formed game cursor and
every well-formed score cursor (well-formed: the string fields hold valid
UTF-8, the invariant of a Rust `String`), and both encoders are
deterministic functions of the cursor value. -/
theorem cursor_codec_roundtrip (g : GameCursor) (s : ScoreCursor)
    (hg1 : WfStr g.hex_id) (hg2 : WfStr g.created_at) (hs : WfStr s.sort_value) :
    (∃ tok, encode_game_cursor g = Except.ok tok ∧
      decode_game_cursor tok = Except.ok g) ∧
    (∃ tok, encode_score_cursor s = Except.ok tok ∧
      decode_score_cursor tok = Except.ok s) ∧
    (∀ g2 : GameCursor, g2 = g → encode_game_cursor g2 = encode_game_cursor g) ∧
    (∀ s2 : ScoreCursor, s2 = s → encode_score_cursor s2 = encode_score_cursor s) := by
  refine ⟨⟨_, rfl, decode_encode_game g hg1 hg2⟩,
    ⟨_, rfl, decode_encode_score s hs⟩, ?_, ?_⟩
  · intro g2 h; rw [h]
  · intro s2 h; rw [h]

/-- Witness for C2 at concrete cursors (`abc123` with an RFC 3339
timestamp; id 5 with numeric sort value `100`). -/
theorem cursor_codec_roundtrip_witness :
    (∃ tok, encode_game_cursor
        ⟨[97, 98, 99, 49, 50, 51],
         [50, 48, 50, 52, 45, 48, 49, 45, 48, 49, 84, 49, 48, 58, 48, 48, 58, 48,
          48, 43, 48, 48, 58, 48, 48]⟩ = Except.ok tok ∧
      decode_game_cursor tok = Except.ok
        ⟨[97, 98, 99, 49, 50, 51],
         [50, 48, 50, 52, 45, 48, 49, 45, 48, 49, 84, 49, 48, 58, 48, 48, 58, 48,
          48, 43, 48, 48, 58, 48, 48]⟩) ∧
    (∃ tok, encode_score_cursor ⟨5, [49, 48, 48]⟩ = Except.ok tok ∧
      decode_score_cursor tok = Except.ok ⟨5, [49, 48, 48]⟩) := by
  have h := cursor_codec_roundtrip
    ⟨[97, 98, 99, 49, 50, 51],
     [50, 48, 50, 52, 45, 48, 49, 45, 48, 49, 84, 49, 48, 58, 48, 48, 58, 48, 48,
      43, 48, 48, 58, 48, 48]⟩
    ⟨5, [49, 48, 48]⟩ (by decide) (by decide) (by decide)
  exact ⟨h.1, h.2.1⟩

/-- C6 counterexample: two malformed tokens whose decode errors differ —
a byte-decoding failure and a deserialization failure carry different,
step-identifying messages, so decoding does not fail with one error that
is the same regardless of the failing sub-step. -/
theorem decode_cursor_errors_differ_counterexample :
    decode_game_cursor [33] =
      Except.error "Failed to decode cursor: Invalid input length" ∧
    decode_game_cursor [] =
      Except.error "Failed to deserialize cursor: invalid cursor JSON" ∧
    decode_score_cursor [33] =
      Except.error "Failed to decode cursor: Invalid input length" ∧
    decode_score_cursor [] =
      Except.error "Failed to deserialize cursor: invalid cursor JSON" ∧
    ("Failed to decode cursor: Invalid input length" : String) ≠
      "Failed to deserialize cursor: invalid cursor JSON" := by decide

/-- C6 (amended): decoding a malformed token always fails with a
validation error, but the message identifies which sub-step failed —
byte decoding, UTF-8 decoding, or structural deserialization — rather
than being one message shared by all sub-steps. -/
theorem decode_cursor_error_taxonomy (tok : Str) :
    ((∃ c, decode_game_cursor tok = Except.ok c) ∨
      (∃ inner, decode_game_cursor tok =
        Except.error ("Failed to decode cursor: " ++ inner)) ∨
      (∃ inner, decode_game_cursor tok =
        Except.error ("Invalid UTF-8 in cursor: " ++ inner)) ∨
      (∃ inner, decode_game_cursor tok =
        Except.error ("Failed to deserialize cursor: " ++ inner))) ∧
    ((∃ c, decode_score_cursor tok = Except.ok c) ∨
      (∃ inner, decode_score_cursor tok =
        Except.error ("Failed to decode cursor: " ++ inner)) ∨
      (∃ inner, decode_score_cursor tok =
        Except.error ("Invalid UTF-8 in cursor: " ++ inner)) ∨
      (∃ inner, decode_score_cursor tok =
        Except.error ("Failed to deserialize cursor: " ++ inner))) := by
  constructor
  · cases hb : b64Decode tok with
    | error e =>
        right; left
        exact ⟨e, by simp [decode_game_cursor, hb]⟩
    | ok bytes =>
        by_cases hv : utf8Valid bytes = true
        · cases hj : gameCursorFromJson bytes with
          | some c => left; exact ⟨c, by simp [decode_game_cursor, hb, hv, hj]⟩
          | none =>
              right; right; right
              exact ⟨"invalid cursor JSON", by simp [decode_game_cursor, hb, hv, hj]⟩
        · right; right; left
          exact ⟨"invalid utf-8 sequence", by simp [decode_game_cursor, hb, hv]⟩
  · cases hb : b64Decode tok with
    | error e =>
        right; left
        exact ⟨e, by simp [decode_score_cursor, hb]⟩
    | ok bytes =>
        by_cases hv : utf8Valid bytes = true
        · cases hj : scoreCursorFromJson bytes with
          | some c => left; exact ⟨c, by simp [decode_score_cursor, hb, hv, hj]⟩
          | none =>
              right; right; right
              exact ⟨"invalid cursor JSON", by simp [decode_score_cursor, hb, hv, hj]⟩
        · right; right; left
          exact ⟨"invalid utf-8 sequence", by simp [decode_score_cursor, hb, hv]⟩

/-- C8 counterexample: create a score with display text `10` and an
explicit `score_val` override of 99, then update only the user name.
The update succeeds, supplies no `score_val`, and leaves the stored pair
(`score = "10"`, `score_val = 99`) numerically inconsistent — refuting
the claim for writes that touch neither `score` nor `score_val`. -/
theorem score_update_stale_score_val_counterexample :
    (ScoreRepository.update
        (ScoreRepository.create []
          ⟨[97, 98, 99, 49, 50, 51], [49, 48], some 99, [66, 111, 98], [117, 49], none⟩
          ⟨2024, 1, 1, 10, 0, 0⟩).2
        1 ⟨none, none, some [65, 110, 110], none, none⟩).1 =
      Except.ok ⟨1, [97, 98, 99, 49, 50, 51], [49, 48], 99, [65, 110, 110],
        [117, 49], none, ⟨2024, 1, 1, 10, 0, 0⟩, none⟩ ∧
    (⟨none, none, some [65, 110, 110], none, none⟩ : UpdateScore).score_val = none ∧
    parseScoreVal [49, 48] = 10 ∧ (99 : Int) ≠ 10 := by decide

/-- C8 (amended): after a successful write the stored `score_val` is the
numeric value of the stored `score` whenever that write supplied `score`
without `score_val` (and on create, whenever `score_val` was absent); a
write supplying `score_val` stores it as given; a write supplying
neither `score` nor `score_val` leaves the previous pair unchanged —
consistency is therefore only violated by carrying forward an earlier
explicit override. -/
theorem score_write_score_val_consistency (db : ScoreDb) (cd : CreateScore)
    (now : DT) (id : Int) (ud : UpdateScore) :
    (cd.score_val = none → ∀ r db2,
      ScoreRepository.create db cd now = (Except.ok r, db2) →
      r.score = cd.score ∧ r.score_val = parseScoreVal r.score) ∧
    (∀ v, cd.score_val = some v → ∀ r db2,
      ScoreRepository.create db cd now = (Except.ok r, db2) →
      r.score_val = v) ∧
    (∀ s, ud.score = some s → ud.score_val = none → ∀ r db2,
      ScoreRepository.update db id ud = (Except.ok r, db2) →
      r.score = s ∧ r.score_val = parseScoreVal s) ∧
    (∀ v, ud.score_val = some v → ∀ r db2,
      ScoreRepository.update db id ud = (Except.ok r, db2) →
      r.score_val = v) ∧
    (ud.score = none → ud.score_val = none → ∀ r db2,
      ScoreRepository.update db id ud = (Except.ok r, db2) →
      ∃ old ∈ db, old.id = id ∧ r.score = old.score ∧ r.score_val = old.score_val) := by
  refine ⟨?_, ?_, ?_, ?_, ?_⟩
  · intro hnone r db2 hcr
    cases hv1 : validate_user_name cd.user_name with
    | error e => simp [ScoreRepository.create, hv1] at hcr
    | ok _ =>
      cases hv2 : validate_user_id cd.user_id with
      | error e => simp [ScoreRepository.create, hv1, hv2] at hcr
      | ok _ =>
        simp [ScoreRepository.create, hv1, hv2] at hcr
        obtain ⟨hr, _⟩ := hcr
        subst hr
        simp [hnone]
  · intro v hv r db2 hcr
    cases hv1 : validate_user_name cd.user_name with
    | error e => simp [ScoreRepository.create, hv1] at hcr
    | ok _ =>
      cases hv2 : validate_user_id cd.user_id with
      | error e => simp [ScoreRepository.create, hv1, hv2] at hcr
      | ok _ =>
        simp [ScoreRepository.create, hv1, hv2] at hcr
        obtain ⟨hr, _⟩ := hcr
        subst hr
        simp [hv]
  · intro s hs hnone r db2 hup
    cases hv1 : (match ud.user_name with | some n => validate_user_name n | none => Except.ok ()) with
    | error e => simp [ScoreRepository.update, hv1] at hup
    | ok _ =>
      cases hv2 : (match ud.user_id with | some n => validate_user_id n | none => Except.ok ()) with
      | error e => simp [ScoreRepository.update, hv1, hv2] at hup
      | ok _ =>
        cases hh : (db.filter (fun r => r.id = id && visibleScore r)).head? with
        | none => simp [ScoreRepository.update, hv1, hv2, hh] at hup
        | some old =>
          simp [ScoreRepository.update, hv1, hv2, hh] at hup
          obtain ⟨hr, _⟩ := hup
          subst hr
          simp [hs, hnone]
  · intro v hv r db2 hup
    cases hv1 : (match ud.user_name with | some n => validate_user_name n | none => Except.ok ()) with
    | error e => simp [ScoreRepository.update, hv1] at hup
    | ok _ =>
      cases hv2 : (match ud.user_id with | some n => validate_user_id n | none => Except.ok ()) with
      | error e => simp [ScoreRepository.update, hv1, hv2] at hup
      | ok _ =>
        cases hh : (db.filter (fun r => r.id = id && visibleScore r)).head? with
        | none => simp [ScoreRepository.update, hv1, hv2, hh] at hup
        | some old =>
          simp [ScoreRepository.update, hv1, hv2, hh] at hup
          obtain ⟨hr, _⟩ := hup
          subst hr
          cases hsc : ud.score <;> simp [hsc, hv]
  · intro hs hnone r db2 hup
    cases hv1 : (match ud.user_name with | some n => validate_user_name n | none => Except.ok ()) with
    | error e => simp [ScoreRepository.update, hv1] at hup
    | ok _ =>
      cases hv2 : (match ud.user_id with | some n => validate_user_id n | none => Except.ok ()) with
      | error e => simp [ScoreRepository.update, hv1, hv2] at hup
      | ok _ =>
        cases hh : (db.filter (fun r => r.id = id && visibleScore r)).head? with
        | none => simp [ScoreRepository.update, hv1, hv2, hh] at hup
        | some old =>
          have hmem : old ∈ db.filter (fun r => r.id = id && visibleScore r) :=
            List.mem_of_mem_head? (by rw [hh]; simp)
          have hold := List.mem_filter.1 hmem
          simp [ScoreRepository.update, hv1, hv2, hh] at hup
          obtain ⟨hr, _⟩ := hup
          subst hr
          refine ⟨old, hold.1, ?_, ?_, ?_⟩
          · have := hold.2; simp at this; exact this.1
          · simp [hs]
          · simp [hs, hnone]

/-- Witness for C8 at a concrete create without an explicit
`score_val`. -/
theorem score_write_score_val_consistency_witness :
    (⟨1, [97, 98, 99, 49, 50, 51], [49, 48], 10, [66, 111, 98], [117, 49], none,
        ⟨2024, 1, 1, 10, 0, 0⟩, none⟩ : ScoreRec).score =
      [49, 48] ∧
    (⟨1, [97, 98, 99, 49, 50, 51], [49, 48], 10, [66, 111, 98], [117, 49], none,
        ⟨2024, 1, 1, 10, 0, 0⟩, none⟩ : ScoreRec).score_val =
      parseScoreVal
        (⟨1, [97, 98, 99, 49, 50, 51], [49, 48], 10, [66, 111, 98], [117, 49], none,
          ⟨2024, 1, 1, 10, 0, 0⟩, none⟩ : ScoreRec).score :=
  (score_write_score_val_consistency []
    ⟨[97, 98, 99, 49, 50, 51], [49, 48], none, [66, 111, 98], [117, 49], none⟩
    ⟨2024, 1, 1, 10, 0, 0⟩ 1 ⟨none, none, none, none, none⟩).1 rfl
    ⟨1, [97, 98, 99, 49, 50, 51], [49, 48], 10, [66, 111, 98], [117, 49], none,
      ⟨2024, 1, 1, 10, 0, 0⟩, none⟩
    [⟨1, [97, 98, 99, 49, 50, 51], [49, 48], 10, [66, 111, 98], [117, 49], none,
      ⟨2024, 1, 1, 10, 0, 0⟩, none⟩]
    (by decide)

/-! ### Game repository lemmas -/

theorem fromQueryResults_data_subset {T : Type} (l : List T) (limit : Nat)
    (cur : Option Str) (f : T → Option Str) :
    ∀ x ∈ (PaginatedResponse.from_query_results l limit cur f).data, x ∈ l := by
  intro x hx
  by_cases h : l.length > limit
  · rw [fromQueryResults_gt l limit cur f h] at hx
    exact List.dropLast_subset l hx
  · rw [fromQueryResults_le l limit cur f (by omega)] at hx
    exact hx

/-- Every row a game list result returns is a visible row of the store. -/
theorem gameList_data_visible (db : GameDb) (params : PaginationParams) :
    ∀ r ∈ pageData (GameRepository.list db params), r ∈ db ∧ visibleGame r = true := by
  intro r hr
  unfold GameRepository.list pageData at hr
  cases hc : params.cursor with
  | none =>
      simp only [hc] at hr
      have h1 := fromQueryResults_data_subset _ _ _ _ r hr
      have h2 : r ∈ db.filter visibleGame :=
        (List.mem_insertionSort _).1 (List.mem_of_mem_take h1)
      have h3 := List.mem_filter.1 h2
      exact ⟨h3.1, h3.2⟩
  | some cur_str =>
      simp only [hc] at hr
      cases hd : decode_game_cursor cur_str with
      | error e => simp [hd] at hr
      | ok ccur =>
        cases hp : parseRfc3339 ccur.created_at with
        | error e => simp [hd, hp] at hr
        | ok cdt =>
          simp only [hd, hp] at hr
          have h1 := fromQueryResults_data_subset _ _ _ _ r hr
          have h2 : r ∈ db.filter
              (fun g => visibleGame g && gameKeysetPred cdt ccur.hex_id g) :=
            (List.mem_insertionSort _).1 (List.mem_of_mem_take h1)
          have h3 := List.mem_filter.1 h2
          refine ⟨h3.1, ?_⟩
          have := h3.2
          simp only [Bool.and_eq_true] at this
          exact this.1

/-- A cursorless game list whose limit covers the whole visible set
returns exactly the sorted visible rows. -/
theorem gameList_nocursor_full (db : GameDb) (limit : Nat) (h1 : 1 ≤ limit)
    (h2 : limit ≤ 100) (hcount : (db.filter visibleGame).length ≤ limit) :
    pageData (GameRepository.list db ⟨none, some limit⟩) =
      (db.filter visibleGame).insertionSort gameOrd := by
  have hlim : (PaginationParams.mk none (some limit)).get_limit = limit := by
    show (if limit > 0 ∧ limit ≤ MAX_PAGE_SIZE then limit else MAX_PAGE_SIZE) = limit
    rw [if_pos ⟨by omega, by unfold MAX_PAGE_SIZE; omega⟩]
  have hsortlen : ((db.filter visibleGame).insertionSort gameOrd).length ≤ limit := by
    rw [List.length_insertionSort]
    exact hcount
  unfold GameRepository.list pageData
  simp only [hlim]
  rw [List.take_of_length_le (by omega), fromQueryResults_le _ _ _ _ hsortlen]

/-- After `soft_delete` on a well-formed hex id, no row of the store that
carries that hex id is visible. -/
theorem soft_delete_hides (db : GameDb) (hex : Str) (now : DT)
    (hvx : validate_hex_id hex = Except.ok ()) :
    ∀ r ∈ (GameRepository.soft_delete db hex now).2,
      r.hex_id = hex → visibleGame r = false := by
  intro r hr hrhex
  unfold GameRepository.soft_delete at hr
  simp only [hvx] at hr
  have hr2 : r ∈ db.map (fun g =>
      if g.hex_id = hex && visibleGame g then
        { g with deleted_at := some now, updated_at := now }
      else g) := by
    by_cases ha : (db.filter (fun g => g.hex_id = hex && visibleGame g)).length = 0
    · simpa [ha] using hr
    · simpa [ha] using hr
  obtain ⟨g, hg, rfl⟩ := List.mem_map.1 hr2
  by_cases hp : (g.hex_id = hex && visibleGame g) = true
  · rw [if_pos hp]
    simp [visibleGame]
  · rw [if_neg hp] at hrhex ⊢
    cases hvis : visibleGame g
    · rfl
    · exfalso
      apply hp
      simp [hrhex, hvis]

/-- A successful `restore` returns a row carrying the requested hex id
that is visible in, and a member of, the resulting store. -/
theorem restore_success_row (db : GameDb) (hex : Str) (now2 : DT) (g : GameRec)
    (db3 : GameDb) (h : GameRepository.restore db hex now2 = (Except.ok g, db3)) :
    g.hex_id = hex ∧ g ∈ db3 ∧ visibleGame g = true := by
  unfold GameRepository.restore at h
  cases hv : validate_hex_id hex with
  | error e => simp [hv] at h
  | ok _ =>
    simp only [hv] at h
    cases hh : (db.filter (fun x => x.hex_id = hex && !(visibleGame x))).head? with
    | none => simp [hh] at h
    | some g0 =>
      simp only [hh] at h
      rw [Prod.mk.injEq] at h
      obtain ⟨h1, h2⟩ := h
      injection h1 with hg'
      have hmem : g0 ∈ db.filter (fun x => x.hex_id = hex && !(visibleGame x)) :=
        List.mem_of_mem_head? (by rw [hh]; simp)
      have hfil := List.mem_filter.1 hmem
      have hpred := hfil.2
      simp only [Bool.and_eq_true, decide_eq_true_eq, Bool.not_eq_true'] at hpred
      refine ⟨?_, ?_, ?_⟩
      · rw [← hg']
        exact hpred.1
      · rw [← h2, ← hg']
        refine List.mem_map.2 ⟨g0, hfil.1, ?_⟩
        rw [if_pos (by simp [hpred.1, hpred.2])]
      · rw [← hg']
        simp [visibleGame]

/-- C7: `soft_delete` on an already-deleted or nonexistent row (under a
well-formed hex id) reports not-found and leaves the store unchanged;
`restore` on a row that is not currently soft-deleted likewise; after a
successful `soft_delete(x)` no list page contains `x`; after a subsequent
successful `restore(x)` a list over the store contains `x` again (shown
for a cursorless page whose limit covers the visible rows). -/
theorem game_soft_delete_restore_spec (db : GameDb) (hex : Str) (now now2 : DT) :
    (validate_hex_id hex = Except.ok () →
      (∀ g ∈ db, ¬(g.hex_id = hex ∧ visibleGame g = true)) →
      GameRepository.soft_delete db hex now = (Except.error ApiErr.notFound, db)) ∧
    (validate_hex_id hex = Except.ok () →
      (∀ g ∈ db, ¬(g.hex_id = hex ∧ visibleGame g = false)) →
      GameRepository.restore db hex now = (Except.error ApiErr.notFound, db)) ∧
    ((GameRepository.soft_delete db hex now).1 = Except.ok () →
      ∀ (params : PaginationParams) (r : GameRec),
        r ∈ pageData (GameRepository.list
          (GameRepository.soft_delete db hex now).2 params) →
        r.hex_id ≠ hex) ∧
    (∀ g db3,
      GameRepository.restore (GameRepository.soft_delete db hex now).2 hex now2 =
        (Except.ok g, db3) →
      ∀ limit : Nat, 1 ≤ limit → limit ≤ 100 →
        (db3.filter visibleGame).length ≤ limit →
        ∃ r ∈ pageData (GameRepository.list db3 ⟨none, some limit⟩),
          r.hex_id = hex) := by
  refine ⟨?_, ?_, ?_, ?_⟩
  · intro hvx hno
    unfold GameRepository.soft_delete
    simp only [hvx]
    have hfil : db.filter (fun g => g.hex_id = hex && visibleGame g) = [] := by
      rw [List.filter_eq_nil_iff]
      intro a ha
      simp only [Bool.and_eq_true, decide_eq_true_eq, not_and]
      intro h1 h2
      exact hno a ha ⟨h1, h2⟩
    rw [hfil]
    simp only [List.length_nil, if_pos rfl]
    have hmap : db.map (fun g =>
        if g.hex_id = hex && visibleGame g then
          { g with deleted_at := some now, updated_at := now }
        else g) = db := by
      have hcongr : ∀ g ∈ db, (if g.hex_id = hex && visibleGame g then
          ({ g with deleted_at := some now, updated_at := now } : GameRec)
        else g) = g := by
        intro g hg
        rw [if_neg]
        simp only [Bool.and_eq_true, decide_eq_true_eq, not_and]
        intro h1 h2
        exact hno g hg ⟨h1, h2⟩
      rw [List.map_congr_left hcongr]
      exact List.map_id' db
    rw [hmap]
    rfl
  · intro hvx hno
    unfold GameRepository.restore
    simp only [hvx]
    have hfil : db.filter (fun x => x.hex_id = hex && !(visibleGame x)) = [] := by
      rw [List.filter_eq_nil_iff]
      intro a ha
      simp only [Bool.and_eq_true, decide_eq_true_eq, Bool.not_eq_true', not_and]
      intro h1 h2
      exact hno a ha ⟨h1, h2⟩
    have hmap : db.map (fun g =>
        if g.hex_id = hex && !(visibleGame g) then
          { g with deleted_at := none, updated_at := now }
        else g) = db := by
      have hcongr : ∀ g ∈ db, (if g.hex_id = hex && !(visibleGame g) then
          ({ g with deleted_at := none, updated_at := now } : GameRec)
        else g) = g := by
        intro g hg
        rw [if_neg]
        simp only [Bool.and_eq_true, decide_eq_true_eq, Bool.not_eq_true', not_and]
        intro h1 h2
        exact hno g hg ⟨h1, h2⟩
      rw [List.map_congr_left hcongr]
      exact List.map_id' db
    rw [hfil, hmap]
    rfl
  · intro hok params r hr
    have hvx : validate_hex_id hex = Except.ok () := by
      cases hv : validate_hex_id hex with
      | error e =>
          unfold GameRepository.soft_delete at hok
          simp [hv] at hok
      | ok u => cases u; rfl
    have h1 := gameList_data_visible _ params r hr
    intro hcon
    have h2 := soft_delete_hides db hex now hvx r h1.1 hcon
    rw [h1.2] at h2
    simp at h2
  · intro g db3 hres limit hl1 hl2 hcount
    obtain ⟨hghex, hgmem, hgvis⟩ := restore_success_row _ hex now2 g db3 hres
    refine ⟨g, ?_, hghex⟩
    rw [gameList_nocursor_full db3 limit hl1 hl2 hcount]
    exact (List.mem_insertionSort _).2 (List.mem_filter.2 ⟨hgmem, hgvis⟩)

/-- Witness for C7: one game, delete it, restore it, and it is listed
again; deleting from an empty store reports not-found. -/
theorem game_soft_delete_restore_spec_witness :
    GameRepository.soft_delete [] [97, 98, 99, 49, 50, 51] ⟨2024, 1, 1, 0, 0, 0⟩ =
      (Except.error ApiErr.notFound, []) ∧
    (∃ r ∈ pageData (GameRepository.list
        [⟨1, [97, 98, 99, 49, 50, 51], [71], none, ⟨2024, 1, 1, 0, 0, 0⟩,
          ⟨2024, 1, 3, 0, 0, 0⟩, none⟩]
        ⟨none, some 25⟩), r.hex_id = [97, 98, 99, 49, 50, 51]) := by
  constructor
  · exact (game_soft_delete_restore_spec [] [97, 98, 99, 49, 50, 51]
      ⟨2024, 1, 1, 0, 0, 0⟩ ⟨2024, 1, 1, 0, 0, 0⟩).1 (by decide) (by intro g hg; simp at hg)
  · exact (game_soft_delete_restore_spec
      [⟨1, [97, 98, 99, 49, 50, 51], [71], none, ⟨2024, 1, 1, 0, 0, 0⟩,
        ⟨2024, 1, 1, 0, 0, 0⟩, none⟩]
      [97, 98, 99, 49, 50, 51] ⟨2024, 1, 2, 0, 0, 0⟩ ⟨2024, 1, 3, 0, 0, 0⟩).2.2.2
      ⟨1, [97, 98, 99, 49, 50, 51], [71], none, ⟨2024, 1, 1, 0, 0, 0⟩,
        ⟨2024, 1, 3, 0, 0, 0⟩, none⟩
      [⟨1, [97, 98, 99, 49, 50, 51], [71], none, ⟨2024, 1, 1, 0, 0, 0⟩,
        ⟨2024, 1, 3, 0, 0, 0⟩, none⟩]
      (by decide) 25 (by decide) (by decide) (by decide)

/-- C1 (failing-input evaluation): a snapshot of two visible scores for
game `abc123`, submitted at 10:00 and 12:00 on the same day, listed with
`sort_by = date`, `order = asc`, `limit = 1`. The first page returns the
10:00 row with `has_more = true`; the second page, requested with the
returned next cursor, is empty — the 12:00 row is silently skipped, so
the concatenation of pages yields one of the two snapshot rows. The
cursor carries the RFC 3339 text `2024-01-01T10:00:00+00:00` while the
stored column text is `2024-01-01 10:00:00`; compared as text, every
same-date stored value sorts below the cursor (space 0x20 versus `T`
0x54 at index 10), so the resume predicate excludes the remaining
same-date rows. -/
theorem scoreList_date_sort_pagination_drops_rows :
    ((([⟨1, [97, 98, 99, 49, 50, 51], [53, 48], 50, [65], [117, 49], none,
          ⟨2024, 1, 1, 10, 0, 0⟩, none⟩,
        ⟨2, [97, 98, 99, 49, 50, 51], [55, 48], 70, [66], [117, 50], none,
          ⟨2024, 1, 1, 12, 0, 0⟩, none⟩] : ScoreDb).filter
        (fun s => visibleScore s && s.game_hex_id = [97, 98, 99, 49, 50, 51])).length
      = 2) ∧
    pageData (ScoreRepository.list_by_game
        [⟨1, [97, 98, 99, 49, 50, 51], [53, 48], 50, [65], [117, 49], none,
          ⟨2024, 1, 1, 10, 0, 0⟩, none⟩,
         ⟨2, [97, 98, 99, 49, 50, 51], [55, 48], 70, [66], [117, 50], none,
          ⟨2024, 1, 1, 12, 0, 0⟩, none⟩]
        [97, 98, 99, 49, 50, 51] ⟨none, some 1⟩
        ⟨some ScoreSortField.Date, some SortOrder.Ascending⟩) =
      [⟨1, [97, 98, 99, 49, 50, 51], [53, 48], 50, [65], [117, 49], none,
        ⟨2024, 1, 1, 10, 0, 0⟩, none⟩] ∧
    pageMore (ScoreRepository.list_by_game
        [⟨1, [97, 98, 99, 49, 50, 51], [53, 48], 50, [65], [117, 49], none,
          ⟨2024, 1, 1, 10, 0, 0⟩, none⟩,
         ⟨2, [97, 98, 99, 49, 50, 51], [55, 48], 70, [66], [117, 50], none,
          ⟨2024, 1, 1, 12, 0, 0⟩, none⟩]
        [97, 98, 99, 49, 50, 51] ⟨none, some 1⟩
        ⟨some ScoreSortField.Date, some SortOrder.Ascending⟩) = true ∧
    pageData (ScoreRepository.list_by_game
        [⟨1, [97, 98, 99, 49, 50, 51], [53, 48], 50, [65], [117, 49], none,
          ⟨2024, 1, 1, 10, 0, 0⟩, none⟩,
         ⟨2, [97, 98, 99, 49, 50, 51], [55, 48], 70, [66], [117, 50], none,
          ⟨2024, 1, 1, 12, 0, 0⟩, none⟩]
        [97, 98, 99, 49, 50, 51]
        ⟨pageNext (ScoreRepository.list_by_game
            [⟨1, [97, 98, 99, 49, 50, 51], [53, 48], 50, [65], [117, 49], none,
              ⟨2024, 1, 1, 10, 0, 0⟩, none⟩,
             ⟨2, [97, 98, 99, 49, 50, 51], [55, 48], 70, [66], [117, 50], none,
              ⟨2024, 1, 1, 12, 0, 0⟩, none⟩]
            [97, 98, 99, 49, 50, 51] ⟨none, some 1⟩
            ⟨some ScoreSortField.Date, some SortOrder.Ascending⟩), some 1⟩
        ⟨some ScoreSortField.Date, some SortOrder.Ascending⟩) = [] := by decide
